import Mathlib

/-!
Verification of the local-logger event pipeline.

This development shallowly embeds the core of the `local-logger` Rust
repository: the event schema (`src/schema.rs`), the JSON serialization
behaviour of its serde derives, the unified log writer
(`src/log_writer.rs`), the reverse tail reader (`src/tail_reader.rs`) and
the logging/forwarding skeleton of the proxy (`src/proxy_server.rs`,
`src/proxy_config.rs`).

Modelling conventions:
- Rust byte slices are `List Nat` (each element < 256 in practice).
- Rust `String` is Lean `String`; its UTF-8 byte length is computed by
  `strBytes` below.
- Rust `HashMap<String, V>` is an association list `List (String × V)`;
  a real map has unique keys, the list fixes an iteration order.
- Nondeterministic inputs (`Utc::now()`, `Uuid::new_v4()`) become explicit
  parameters of the constructor models.
- Third-party pure functions that are not part of this repository
  (flate2's gzip inflate, serde_json's text-level parser) are passed in as
  function parameters, so every theorem quantifies over them.
-/

/-! ## JSON value model

`Json` models the tree a serde serializer produces.  Objects are
association lists in emission order and may contain duplicate keys, just
as the JSON text serde_json writes may repeat a key (which happens when
`#[serde(flatten)]` re-emits a field name). -/

inductive Json where
  | null : Json
  | bool (b : Bool) : Json
  | num (n : Int) : Json
  | str (s : String) : Json
  | arr (elems : List Json) : Json
  | obj (fields : List (String × Json)) : Json

/-! ## Schema data model (src/schema.rs) -/

/-- Model of `SCHEMA_VERSION`. -/
def SCHEMA_VERSION : Nat := 1

/-- Model of `SENSITIVE_HEADERS` in src/schema.rs. -/
def SENSITIVE_HEADERS : List String :=
  ["authorization", "cookie", "set-cookie", "api-key", "x-api-key",
   "x-auth-token", "x-session-token", "proxy-authorization",
   "www-authenticate", "authentication"]

/-- Model of `McpLogEvent`. -/
structure McpLogEvent where
  level : String
  message : String

/-- Model of `ProxyDebugEvent`.  `line` is `Option<u32>`; integer widths
are not re-checked, all constructed values fit. -/
structure ProxyDebugEvent where
  level : String
  message : String
  module : Option String
  target : Option String
  file : Option String
  line : Option Nat

/-- Model of `HookLogEvent`.  `extra` models the flattened
`HashMap<String, serde_json::Value>`. -/
structure HookLogEvent where
  event_type : String
  tool_name : Option String
  tool_input : Option Json
  transcript_path : Option String
  cwd : Option String
  extra : List (String × Json)

/-- Model of `BodyContent` (tagged enum, tag field `type`). -/
inductive BodyContent where
  | text (data : String) : BodyContent
  | binary (data : String) : BodyContent
  | truncated (preview : String) (reason : String) : BodyContent
  | decompressionFailed (error : String) : BodyContent
  | empty : BodyContent

/-- Model of `BodyData`. -/
structure BodyData where
  original_encoding : Option String
  content_type : Option String
  size_bytes : Nat
  stored_size_bytes : Nat
  truncated : Bool
  content : BodyContent

/-- Model of `UrlComponents`. -/
structure UrlComponents where
  scheme : String
  host : String
  port : Option Nat
  path : String
  query_params : List (String × String)

/-- Model of `ProxyRequestEvent`.  `id` models the `Uuid` by its canonical
string rendering. -/
structure ProxyRequestEvent where
  id : String
  method : String
  uri : String
  headers : List (String × String)
  body : BodyData
  tls_handshake_ms : Option Nat
  url_components : Option UrlComponents
  curl_command : Option String
  endpoint_pattern : Option String
  api_version : Option String

/-- Model of `ProxyResponseEvent`. -/
structure ProxyResponseEvent where
  request_id : String
  status : Nat
  headers : List (String × String)
  body : BodyData
  duration_ms : Nat

/-- Model of `LogEvent` (tagged enum, tag field `type`). -/
inductive LogEvent where
  | mcp (e : McpLogEvent) : LogEvent
  | hook (e : HookLogEvent) : LogEvent
  | proxyRequest (e : ProxyRequestEvent) : LogEvent
  | proxyResponse (e : ProxyResponseEvent) : LogEvent
  | proxyDebug (e : ProxyDebugEvent) : LogEvent

/-- Model of `LogEntry`.  `timestamp` models the `DateTime<Utc>` by its
RFC 3339 rendering (chrono serializes it as that string). -/
structure LogEntry where
  schema_version : Nat
  timestamp : String
  date : String
  session_id : String
  correlation_id : String
  event : LogEvent

/-! ## Header redaction (src/schema.rs, `redact_sensitive_headers`) -/

/-- ASCII lowering of one character.  Models Rust `char::to_lowercase` on
the ASCII range; the two agree there, which covers every name in
`SENSITIVE_HEADERS` and every HTTP header name hyper produces. -/
def charAsciiLower (c : Char) : Char :=
  if 65 ≤ c.toNat && c.toNat ≤ 90 then Char.ofNat (c.toNat + 32) else c

/-- Model of Rust `str::to_lowercase` (ASCII fragment, see
`charAsciiLower`). -/
def rustToLowercase (s : String) : String :=
  String.mk (s.data.map charAsciiLower)

/-- First piece of Rust `value.splitn(2, ' ')`: the characters before the
first space (the whole string when no space occurs). -/
def splitnSpaceFirst (s : String) : String :=
  String.mk (s.data.takeWhile (fun c => !(c == ' ')))

/-- Model of `redact_sensitive_headers`. -/
def redact_sensitive_headers (headers : List (String × String)) :
    List (String × String) :=
  headers.map fun p =>
    let key_lower := rustToLowercase p.1
    if SENSITIVE_HEADERS.contains key_lower then
      let redacted_value :=
        if key_lower == "authorization" && p.2.data.contains ' ' then
          "[REDACTED:" ++ splitnSpaceFirst p.2 ++ "]"
        else
          "[REDACTED]"
      (p.1, redacted_value)
    else
      (p.1, p.2)

/-- Value transformation stated by the claim: sensitive keys (compared in
lowercase) are replaced by `[REDACTED]`, except case-variants of
`authorization` whose value contains a space, which keep the scheme, the
text before the first space, as `[REDACTED:<scheme>]`. -/
def claimRedactValue (key value : String) : String :=
  if SENSITIVE_HEADERS.contains (rustToLowercase key) then
    if rustToLowercase key == "authorization" && value.data.contains ' ' then
      "[REDACTED:" ++ String.mk (value.data.takeWhile (fun c => !(c == ' '))) ++ "]"
    else
      "[REDACTED]"
  else
    value

/-! ## UTF-8 (Rust `String::from_utf8` / `String::from_utf8_lossy`)

The strict decoder mirrors Rust core's UTF-8 validation (RFC 3629: no
overlongs, no surrogates, max U+10FFFF).  The lossy decoder mirrors
`from_utf8_lossy`'s substitution of maximal subparts: an invalid sequence
of 1-3 consumed bytes becomes one U+FFFD, an incomplete sequence at the
end of input becomes a final U+FFFD. -/

/-- A UTF-8 continuation byte: `0x80..=0xBF`. -/
def utf8Cont (b : Nat) : Bool := 128 ≤ b && b ≤ 191

/-- Allowed range of the first continuation byte of a three-byte sequence,
by lead byte (`0xE0` excludes overlongs, `0xED` excludes surrogates). -/
def utf8Cont3First (b c : Nat) : Bool :=
  if b == 224 then 160 ≤ c && c ≤ 191
  else if b == 237 then 128 ≤ c && c ≤ 159
  else utf8Cont c

/-- Allowed range of the first continuation byte of a four-byte sequence,
by lead byte (`0xF0` excludes overlongs, `0xF4` caps at U+10FFFF). -/
def utf8Cont4First (b c : Nat) : Bool :=
  if b == 240 then 144 ≤ c && c ≤ 191
  else if b == 244 then 128 ≤ c && c ≤ 143
  else utf8Cont c

/-- Strict UTF-8 decoding, modelling `String::from_utf8` on a byte slice:
`some` of the decoded scalar values exactly when the bytes are valid. -/
def utf8Decode : List Nat → Option (List Char)
  | [] => some []
  | b :: rest =>
    if b < 128 then
      match utf8Decode rest with
      | some cs => some (Char.ofNat b :: cs)
      | none => none
    else if b < 194 then none
    else if b ≤ 223 then
      match rest with
      | c1 :: r =>
        if utf8Cont c1 then
          match utf8Decode r with
          | some cs => some (Char.ofNat ((b - 192) * 64 + (c1 - 128)) :: cs)
          | none => none
        else none
      | [] => none
    else if b ≤ 239 then
      match rest with
      | c1 :: c2 :: r =>
        if utf8Cont3First b c1 && utf8Cont c2 then
          match utf8Decode r with
          | some cs =>
            some (Char.ofNat ((b - 224) * 4096 + (c1 - 128) * 64 + (c2 - 128)) :: cs)
          | none => none
        else none
      | _ => none
    else if b ≤ 244 then
      match rest with
      | c1 :: c2 :: c3 :: r =>
        if utf8Cont4First b c1 && utf8Cont c2 && utf8Cont c3 then
          match utf8Decode r with
          | some cs =>
            some (Char.ofNat ((b - 240) * 262144 + (c1 - 128) * 4096 +
              (c2 - 128) * 64 + (c3 - 128)) :: cs)
          | none => none
        else none
      | _ => none
    else none

/-- The U+FFFD replacement character. -/
def repChar : Char := Char.ofNat 65533

/-- Lossy UTF-8 decoding, modelling `String::from_utf8_lossy`.  After an
invalid prefix the decoder resumes exactly where Rust's `error_len`
says the invalid sequence ended. -/
def utf8Lossy : List Nat → List Char
  | [] => []
  | b :: rest =>
    if b < 128 then Char.ofNat b :: utf8Lossy rest
    else if b < 194 then repChar :: utf8Lossy rest
    else if b ≤ 223 then
      match rest with
      | [] => [repChar]
      | c1 :: r =>
        if utf8Cont c1 then
          Char.ofNat ((b - 192) * 64 + (c1 - 128)) :: utf8Lossy r
        else repChar :: utf8Lossy (c1 :: r)
    else if b ≤ 239 then
      match rest with
      | [] => [repChar]
      | c1 :: r =>
        if utf8Cont3First b c1 then
          match r with
          | [] => [repChar]
          | c2 :: r2 =>
            if utf8Cont c2 then
              Char.ofNat ((b - 224) * 4096 + (c1 - 128) * 64 + (c2 - 128)) ::
                utf8Lossy r2
            else repChar :: utf8Lossy (c2 :: r2)
        else repChar :: utf8Lossy (c1 :: r)
    else if b ≤ 244 then
      match rest with
      | [] => [repChar]
      | c1 :: r =>
        if utf8Cont4First b c1 then
          match r with
          | [] => [repChar]
          | c2 :: r2 =>
            if utf8Cont c2 then
              match r2 with
              | [] => [repChar]
              | c3 :: r3 =>
                if utf8Cont c3 then
                  Char.ofNat ((b - 240) * 262144 + (c1 - 128) * 4096 +
                    (c2 - 128) * 64 + (c3 - 128)) :: utf8Lossy r3
                else repChar :: utf8Lossy (c3 :: r3)
            else repChar :: utf8Lossy (c2 :: r2)
        else repChar :: utf8Lossy (c1 :: r)
    else repChar :: utf8Lossy rest

/-- UTF-8 byte width of one scalar value. -/
def charUtf8Size (c : Char) : Nat :=
  if c.toNat < 128 then 1
  else if c.toNat < 2048 then 2
  else if c.toNat < 65536 then 3
  else 4

/-- UTF-8 byte length of a character list. -/
def utf8SizeChars (cs : List Char) : Nat := (cs.map charUtf8Size).sum

/-- UTF-8 byte length of a string: the model of Rust `String::len`. -/
def strBytes (s : String) : Nat := utf8SizeChars s.data

/-! ## Base64 (standard alphabet, `base64::engine::general_purpose::STANDARD`) -/

/-- The standard base64 alphabet. -/
def b64Alphabet : List Char :=
  "ABCDEFGHIJKLMNOPQRSTUVWXYZabcdefghijklmnopqrstuvwxyz0123456789+/".data

/-- One base64 digit. -/
def b64Char (n : Nat) : Char := b64Alphabet.getD n 'A'

/-- Standard base64 of a byte list, with `=` padding. -/
def b64Encode : List Nat → List Char
  | [] => []
  | [a] => [b64Char (a / 4), b64Char ((a % 4) * 16), '=', '=']
  | [a, b] => [b64Char (a / 4), b64Char ((a % 4) * 16 + b / 16),
      b64Char ((b % 16) * 4), '=']
  | a :: b :: c :: rest =>
      b64Char (a / 4) :: b64Char ((a % 4) * 16 + b / 16) ::
      b64Char ((b % 16) * 4 + c / 64) :: b64Char (c % 64) :: b64Encode rest

/-! ## Decimal rendering (for `format!` interpolations and JSON numbers) -/

/-- One decimal digit character. -/
def digitChar (n : Nat) : Char := Char.ofNat (48 + n % 10)

/-- Decimal digits of a natural number, most significant first. -/
def natChars (n : Nat) : List Char :=
  if _h : n < 10 then [digitChar n]
  else natChars (n / 10) ++ [digitChar (n % 10)]
termination_by n
decreasing_by exact Nat.div_lt_self (by omega) (by omega)

/-- Decimal rendering of a natural number as a string. -/
def natString (n : Nat) : String := String.mk (natChars n)

/-! ## Substring test (Rust `str::contains` with a string pattern) -/

/-- Whether some suffix of `l` starts with `needle`. -/
def suffixHasPrefix (needle : List Char) : List Char → Bool
  | [] => needle.isEmpty
  | c :: rest => needle.isPrefixOf (c :: rest) || suffixHasPrefix needle rest

/-- Model of Rust `hay.contains(needle)` for string patterns. -/
def strContainsSub (hay needle : String) : Bool :=
  suffixHasPrefix needle.data hay.data

/-! ## BodyData::from_bytes (src/schema.rs lines 354-457)

Totality is inherited by the embedding: the Lean function returns a
`BodyData` for every input, as the Rust function does (every branch
constructs a value; the truncation slice `[..max_size.min(1024)]` is in
bounds because the branch guarantees `working_bytes.len() > max_size`).
`gzip_inflate` abstracts flate2's `GzDecoder::read_to_end`, which is an
external crate; theorems quantify over it. -/

/-- The `let (decompressed, decompression_error) = ...` binding at the top
of `BodyData::from_bytes`: attempt gzip decode exactly when the encoding
is present and mentions gzip. -/
def decompressionDecision (gzip_inflate : List Nat → Except String (List Nat))
    (bytes : List Nat) (content_encoding : Option String) :
    Option (List Nat) × Option String :=
  match content_encoding with
  | some encoding =>
    if strContainsSub encoding "gzip" then
      match gzip_inflate bytes with
      | .ok data => (some data, none)
      | .error e => (none, some e)
    else (none, none)
  | none => (none, none)

/-- Model of `BodyData::from_bytes`. -/
def BodyData.from_bytes (gzip_inflate : List Nat → Except String (List Nat))
    (bytes : List Nat) (content_encoding content_type : Option String)
    (max_size : Nat) : BodyData :=
  let original_size := bytes.length
  let dec := decompressionDecision gzip_inflate bytes content_encoding
  let working_bytes := dec.1.getD bytes
  match dec.2 with
  | some error =>
    { original_encoding := content_encoding, content_type := content_type,
      size_bytes := original_size, stored_size_bytes := 0, truncated := false,
      content := .decompressionFailed error }
  | none =>
    if working_bytes.isEmpty then
      { original_encoding := content_encoding, content_type := content_type,
        size_bytes := original_size, stored_size_bytes := 0, truncated := false,
        content := .empty }
    else if max_size < working_bytes.length then
      let preview := String.mk (utf8Lossy (working_bytes.take (min max_size 1024)))
      { original_encoding := content_encoding, content_type := content_type,
        size_bytes := original_size, stored_size_bytes := strBytes preview,
        truncated := true,
        content := .truncated preview
          ("Body size " ++ natString working_bytes.length ++ " exceeds max " ++
            natString max_size) }
    else
      match utf8Decode working_bytes with
      | some cs =>
        let text := String.mk cs
        { original_encoding := content_encoding, content_type := content_type,
          size_bytes := original_size, stored_size_bytes := strBytes text,
          truncated := false, content := .text text }
      | none =>
        let encoded := String.mk (b64Encode working_bytes)
        { original_encoding := content_encoding, content_type := content_type,
          size_bytes := original_size, stored_size_bytes := strBytes encoded,
          truncated := false, content := .binary encoded }

/-! ## Claim-side body classification (for the refinement statement of the
`from_bytes` decision order) -/

/-- The content variant selected, with the data the claim specifies for
`Text` and `Binary`. -/
inductive BodyClass where
  | decompFail : BodyClass
  | isEmpty : BodyClass
  | isTruncated : BodyClass
  | text (s : String) : BodyClass
  | binary (s : String) : BodyClass

/-- Which class a `BodyContent` value falls in. -/
def classOfContent : BodyContent → BodyClass
  | .text d => .text d
  | .binary d => .binary d
  | .truncated _ _ => .isTruncated
  | .decompressionFailed _ => .decompFail
  | .empty => .isEmpty

/-- Classification of the effective (decoded or raw) bytes, as the claim
words it: empty, oversize, valid UTF-8 text, else standard base64 binary. -/
def claimEffective (eff : List Nat) (max_size : Nat) : BodyClass :=
  if eff = [] then .isEmpty
  else if max_size < eff.length then .isTruncated
  else
    match utf8Decode eff with
    | some cs => .text (String.mk cs)
    | none => .binary (String.mk (b64Encode eff))

/-- The claim's decision order: gzip decode is attempted exactly when the
content encoding is present and mentions gzip; a decode failure is
`DecompressionFailed`; otherwise the effective bytes are classified. -/
def claimBodyClass (gzip_inflate : List Nat → Except String (List Nat))
    (bytes : List Nat) (content_encoding : Option String)
    (max_size : Nat) : BodyClass :=
  match content_encoding with
  | some encoding =>
    if strContainsSub encoding "gzip" then
      match gzip_inflate bytes with
      | .ok d => claimEffective d max_size
      | .error _ => .decompFail
    else claimEffective bytes max_size
  | none => claimEffective bytes max_size

/-- Character count of a `Truncated` preview (`0` for other variants). -/
def previewCharLen : BodyContent → Nat
  | .truncated p _ => p.data.length
  | _ => 0

/-- UTF-8 byte count of a `Truncated` preview (`0` for other variants). -/
def previewByteLen : BodyContent → Nat
  | .truncated p _ => strBytes p
  | _ => 0

/-! ## Serialization to the JSON tree (serde derive semantics)

The derives on the schema types determine the emitted object shape:
- every struct field is emitted in declaration order;
- an `Option` field without attributes is emitted as `null` when `None`;
- the four fields of `ProxyRequestEvent` marked
  `#[serde(skip_serializing_if = "Option::is_none")]` are omitted when
  `None`;
- the internally tagged enums emit `"type": "<Variant>"` first;
- the `#[serde(flatten)]` map of `HookLogEvent` appends its pairs after
  the named fields. -/

/-- An `Option<String>` field without `skip_serializing_if`. -/
def jOptStr : Option String → Json
  | none => .null
  | some s => .str s

/-- An `Option<u64>`-style field without `skip_serializing_if`. -/
def jOptNat : Option Nat → Json
  | none => .null
  | some n => .num n

/-- A `HashMap<String, String>` serializes as an object of strings. -/
def jStrMap (m : List (String × String)) : Json :=
  .obj (m.map fun p => (p.1, Json.str p.2))

/-- Serialization of `BodyContent` (internally tagged). -/
def serializeBodyContent : BodyContent → Json
  | .text d => .obj [("type", .str "Text"), ("data", .str d)]
  | .binary d => .obj [("type", .str "Binary"), ("data", .str d)]
  | .truncated p r =>
    .obj [("type", .str "Truncated"), ("preview", .str p), ("reason", .str r)]
  | .decompressionFailed e =>
    .obj [("type", .str "DecompressionFailed"), ("error", .str e)]
  | .empty => .obj [("type", .str "Empty")]

/-- Serialization of `BodyData`. -/
def serializeBodyData (b : BodyData) : Json :=
  .obj [("original_encoding", jOptStr b.original_encoding),
        ("content_type", jOptStr b.content_type),
        ("size_bytes", .num b.size_bytes),
        ("stored_size_bytes", .num b.stored_size_bytes),
        ("truncated", .bool b.truncated),
        ("content", serializeBodyContent b.content)]

/-- Serialization of `UrlComponents`. -/
def serializeUrlComponents (u : UrlComponents) : Json :=
  .obj [("scheme", .str u.scheme),
        ("host", .str u.host),
        ("port", jOptNat u.port),
        ("path", .str u.path),
        ("query_params", jStrMap u.query_params)]

/-- Fields of a serialized `McpLogEvent`. -/
def mcpFields (e : McpLogEvent) : List (String × Json) :=
  [("level", .str e.level), ("message", .str e.message)]

/-- Fields of a serialized `ProxyDebugEvent`: the four optional fields
carry no serde attribute, so an absent value is emitted as `null`. -/
def proxyDebugFields (e : ProxyDebugEvent) : List (String × Json) :=
  [("level", .str e.level), ("message", .str e.message),
   ("module", jOptStr e.module), ("target", jOptStr e.target),
   ("file", jOptStr e.file), ("line", jOptNat e.line)]

/-- Fields of a serialized `HookLogEvent`: named fields first (optional
ones as `null` when absent), then the flattened `extra` pairs. -/
def hookFields (e : HookLogEvent) : List (String × Json) :=
  [("event_type", .str e.event_type),
   ("tool_name", jOptStr e.tool_name),
   ("tool_input", match e.tool_input with | none => Json.null | some v => v),
   ("transcript_path", jOptStr e.transcript_path),
   ("cwd", jOptStr e.cwd)] ++ e.extra

/-- Fields of a serialized `ProxyRequestEvent`: `tls_handshake_ms` is
always emitted (`null` when absent); the last four fields carry
`skip_serializing_if = "Option::is_none"` and are omitted when absent. -/
def proxyRequestFields (e : ProxyRequestEvent) : List (String × Json) :=
  [("id", .str e.id), ("method", .str e.method), ("uri", .str e.uri),
   ("headers", jStrMap e.headers),
   ("body", serializeBodyData e.body),
   ("tls_handshake_ms", jOptNat e.tls_handshake_ms)] ++
  (match e.url_components with
   | some u => [("url_components", serializeUrlComponents u)]
   | none => []) ++
  (match e.curl_command with
   | some c => [("curl_command", Json.str c)]
   | none => []) ++
  (match e.endpoint_pattern with
   | some p => [("endpoint_pattern", Json.str p)]
   | none => []) ++
  (match e.api_version with
   | some v => [("api_version", Json.str v)]
   | none => [])

/-- Fields of a serialized `ProxyResponseEvent`. -/
def proxyResponseFields (e : ProxyResponseEvent) : List (String × Json) :=
  [("request_id", .str e.request_id), ("status", .num e.status),
   ("headers", jStrMap e.headers),
   ("body", serializeBodyData e.body),
   ("duration_ms", .num e.duration_ms)]

/-- Serialization of `LogEvent`: the `"type"` tag followed by the variant
fields. -/
def serializeLogEvent : LogEvent → Json
  | .mcp e => .obj (("type", Json.str "Mcp") :: mcpFields e)
  | .hook e => .obj (("type", Json.str "Hook") :: hookFields e)
  | .proxyRequest e => .obj (("type", Json.str "ProxyRequest") :: proxyRequestFields e)
  | .proxyResponse e => .obj (("type", Json.str "ProxyResponse") :: proxyResponseFields e)
  | .proxyDebug e => .obj (("type", Json.str "ProxyDebug") :: proxyDebugFields e)

/-- Serialization of a `LogEntry`. -/
def serializeLogEntry (e : LogEntry) : Json :=
  .obj [("schema_version", .num e.schema_version),
        ("timestamp", .str e.timestamp),
        ("date", .str e.date),
        ("session_id", .str e.session_id),
        ("correlation_id", .str e.correlation_id),
        ("event", serializeLogEvent e.event)]

/-! ## Constructors (src/schema.rs, `impl LogEntry`)

Rust stamps `timestamp = Utc::now()`, derives `date` by formatting it, and
draws fresh UUIDs; the model receives these nondeterministic values as the
leading `now`, `date` and `uuid` parameters. -/

/-- Model of `LogEntry::new_mcp`. -/
def LogEntry.new_mcp (now date uuid : String)
    (session_id level message : String) : LogEntry :=
  { schema_version := SCHEMA_VERSION, timestamp := now, date := date,
    session_id := session_id, correlation_id := uuid,
    event := .mcp { level := level, message := message } }

/-- Model of `LogEntry::new_hook`. -/
def LogEntry.new_hook (now date uuid : String) (session_id event_type : String)
    (tool_name : Option String) (tool_input : Option Json)
    (transcript_path cwd : Option String)
    (extra : List (String × Json)) : LogEntry :=
  { schema_version := SCHEMA_VERSION, timestamp := now, date := date,
    session_id := session_id, correlation_id := uuid,
    event := .hook {
      event_type := event_type, tool_name := tool_name,
      tool_input := tool_input, transcript_path := transcript_path,
      cwd := cwd, extra := extra } }

/-- Model of `LogEntry::new_proxy_request`. -/
def LogEntry.new_proxy_request (now date : String)
    (session_id correlation_id request_id method uri : String)
    (headers : List (String × String)) (body : BodyData)
    (tls_handshake_ms : Option Nat) (url_components : Option UrlComponents)
    (curl_command endpoint_pattern api_version : Option String) : LogEntry :=
  { schema_version := SCHEMA_VERSION, timestamp := now, date := date,
    session_id := session_id, correlation_id := correlation_id,
    event := .proxyRequest {
      id := request_id, method := method, uri := uri,
      headers := headers, body := body, tls_handshake_ms := tls_handshake_ms,
      url_components := url_components, curl_command := curl_command,
      endpoint_pattern := endpoint_pattern, api_version := api_version } }

/-- Model of `LogEntry::new_proxy_response`. -/
def LogEntry.new_proxy_response (now date : String)
    (session_id correlation_id request_id : String) (status : Nat)
    (headers : List (String × String)) (body : BodyData)
    (duration_ms : Nat) : LogEntry :=
  { schema_version := SCHEMA_VERSION, timestamp := now, date := date,
    session_id := session_id, correlation_id := correlation_id,
    event := .proxyResponse {
      request_id := request_id, status := status,
      headers := headers, body := body, duration_ms := duration_ms } }

/-- Model of `LogEntry::new_proxy_debug`. -/
def LogEntry.new_proxy_debug (now date uuid : String)
    (session_id level message : String)
    (module target file : Option String) (line : Option Nat) : LogEntry :=
  { schema_version := SCHEMA_VERSION, timestamp := now, date := date,
    session_id := session_id, correlation_id := uuid,
    event := .proxyDebug {
      level := level, message := message,
      module := module, target := target, file := file, line := line } }

/-! ## Serialized-object access helpers -/

/-- Values carried by key `k` in an object field list, in order. -/
def valuesFor (l : List (String × Json)) (k : String) : List Json :=
  (l.filter fun p => p.1 == k).map Prod.snd

/-- The field list of the serialized `event` object of an entry. -/
def eventFields (e : LogEntry) : List (String × Json) :=
  match serializeLogEvent e.event with
  | .obj l => l
  | _ => []

/-- A body value used by concrete example entries below. -/
def sampleBody : BodyData :=
  { original_encoding := none, content_type := none, size_bytes := 0,
    stored_size_bytes := 0, truncated := false, content := .empty }

/-! ## Compact JSON text rendering (serde_json::to_writer)

serde_json writes the tree with no whitespace, escaping `"`, `\` and
control characters below 0x20 (with the usual two-character shortcuts and
`\u00XX` otherwise) and emitting everything else, including non-ASCII,
verbatim. -/

def renderInt : Int → List Char
  | .ofNat m => natChars m
  | .negSucc m => '-' :: natChars (m + 1)

def hexDigit (n : Nat) : Char := "0123456789abcdef".data.getD n '0'

def escapeChar (c : Char) : List Char :=
  if c == '"' then ['\\', '"']
  else if c == '\\' then ['\\', '\\']
  else if c.toNat < 32 then
    match c.toNat with
    | 8 => ['\\', 'b']
    | 9 => ['\\', 't']
    | 10 => ['\\', 'n']
    | 12 => ['\\', 'f']
    | 13 => ['\\', 'r']
    | k => ['\\', 'u', '0', '0', hexDigit (k / 16), hexDigit (k % 16)]
  else [c]

def escapeChars : List Char → List Char
  | [] => []
  | c :: rest => escapeChar c ++ escapeChars rest

def jsonNullChars : List Char := "null".data

def jsonTrueChars : List Char := "true".data

def jsonFalseChars : List Char := "false".data

mutual

def renderJson : Json → List Char
  | .null => jsonNullChars
  | .bool true => jsonTrueChars
  | .bool false => jsonFalseChars
  | .num n => renderInt n
  | .str s => '"' :: (escapeChars s.data ++ ['"'])
  | .arr xs => '[' :: (renderElems xs ++ [']'])
  | .obj l => Char.ofNat 123 :: (renderMembers l ++ [Char.ofNat 125])

def renderElems : List Json → List Char
  | [] => []
  | [x] => renderJson x
  | x :: y :: rest => renderJson x ++ (',' :: renderElems (y :: rest))

def renderMembers : List (String × Json) → List Char
  | [] => []
  | [(k, v)] => '"' :: (escapeChars k.data ++ ('"' :: ':' :: renderJson v))
  | (k, v) :: y :: rest =>
    '"' :: (escapeChars k.data ++ ('"' :: ':' :: (renderJson v ++
      (',' :: renderMembers (y :: rest)))))

end

/-! ## Log writer (src/log_writer.rs)

The file system is an association list from paths to byte contents
(characters standing for bytes; the written payload is ASCII-escaped JSON
plus the raw UTF-8 of any non-ASCII character, so character positions and
byte positions agree for the prefix semantics below).  An I/O failure of
any of the open/lock/write/flush steps is modelled by an oracle `fault`:
`none` means every operation succeeds, `some f` means the operation chain
fails with message `f.msg` after `f.written` payload characters reached
the file. -/

/-- A file system: path to contents. -/
def Fs : Type := List (String × List Char)

/-- Look up a file. -/
def fsGet : List (String × List Char) → String → Option (List Char)
  | [], _ => none
  | (q, v) :: rest, p => if q == p then some v else fsGet rest p

/-- Write a file (replace or create). -/
def fsSet : List (String × List Char) → String → List Char →
    List (String × List Char)
  | [], p, v => [(p, v)]
  | (q, w) :: rest, p, v =>
    if q == p then (q, v) :: rest else (q, w) :: fsSet rest p v

/-- Model of `LogWriter::get_log_file_path`:
`<logs_dir>/<date>.jsonl`. -/
def get_log_file_path (logs_dir date : String) : String :=
  logs_dir ++ "/" ++ date ++ ".jsonl"

/-- An I/O fault injected by the oracle. -/
structure IoFault where
  msg : String
  written : Nat

/-- Model of `LogWriter::write_sync`: open with create+append, lock,
serialize the entry as one line, write `\n`, flush.  On success the file
gains exactly the payload; on an injected fault the error is returned and
the file holds whatever prefix of the payload was already written. -/
def write_sync (fs : List (String × List Char)) (logs_dir : String)
    (entry : LogEntry) (fault : Option IoFault) :
    Except String Unit × List (String × List Char) :=
  let log_file_path := get_log_file_path logs_dir entry.date
  let old := (fsGet fs log_file_path).getD []
  let payload := renderJson (serializeLogEntry entry) ++ ['\n']
  match fault with
  | none => (.ok (), fsSet fs log_file_path (old ++ payload))
  | some f => (.error f.msg, fsSet fs log_file_path (old ++ payload.take f.written))

/-! ## Deserialization from the JSON tree (serde derive semantics)

A reader mirrors serde's derived `Deserialize` impls:
- a known struct field appearing twice is a `duplicate field` error;
- unknown fields of a plain struct are ignored (no `deny_unknown_fields`);
- a missing `Option` field is `None`, a present `null` is `None`;
- a missing non-optional field is an error;
- the internally tagged enums read the `"type"` key (duplicate tag is an
  error) and hand every other pair, in order, to the variant;
- `HookLogEvent` (which has `#[serde(flatten)]`) collects every pair whose
  key names none of its fields into `extra`. -/

/-- The single value of key `k`: `none` when absent, an error when the key
appears more than once (serde's `duplicate field`). -/
def getOnce (l : List (String × Json)) (k : String) :
    Except String (Option Json) :=
  match valuesFor l k with
  | [] => .ok none
  | [v] => .ok (some v)
  | _ => .error ("duplicate field " ++ k)

/-- A required string field. -/
def reqStr (l : List (String × Json)) (k : String) : Except String String :=
  match getOnce l k with
  | .ok (some (.str s)) => .ok s
  | .ok (some _) => .error ("invalid type for " ++ k)
  | .ok none => .error ("missing field " ++ k)
  | .error e => .error e

/-- A required unsigned integer field. -/
def reqNat (l : List (String × Json)) (k : String) : Except String Nat :=
  match getOnce l k with
  | .ok (some (.num (.ofNat m))) => .ok m
  | .ok (some _) => .error ("invalid value for " ++ k)
  | .ok none => .error ("missing field " ++ k)
  | .error e => .error e

/-- A required boolean field. -/
def reqBool (l : List (String × Json)) (k : String) : Except String Bool :=
  match getOnce l k with
  | .ok (some (.bool b)) => .ok b
  | .ok (some _) => .error ("invalid type for " ++ k)
  | .ok none => .error ("missing field " ++ k)
  | .error e => .error e

/-- An `Option<String>` field: missing or `null` is `None`. -/
def optStrField (l : List (String × Json)) (k : String) :
    Except String (Option String) :=
  match getOnce l k with
  | .ok none => .ok none
  | .ok (some .null) => .ok none
  | .ok (some (.str s)) => .ok (some s)
  | .ok (some _) => .error ("invalid type for " ++ k)
  | .error e => .error e

/-- An `Option<u64>`-style field: missing or `null` is `None`. -/
def optNatField (l : List (String × Json)) (k : String) :
    Except String (Option Nat) :=
  match getOnce l k with
  | .ok none => .ok none
  | .ok (some .null) => .ok none
  | .ok (some (.num (.ofNat m))) => .ok (some m)
  | .ok (some _) => .error ("invalid value for " ++ k)
  | .error e => .error e

/-- An `Option<serde_json::Value>` field: missing or `null` is `None`
(serde cannot tell `Some(Value::Null)` from `None` here). -/
def optValField (l : List (String × Json)) (k : String) :
    Except String (Option Json) :=
  match getOnce l k with
  | .ok none => .ok none
  | .ok (some .null) => .ok none
  | .ok (some v) => .ok (some v)
  | .error e => .error e

/-- Read the pairs of a string-valued map object. -/
def strPairs : List (String × Json) → Except String (List (String × String))
  | [] => .ok []
  | (k, .str v) :: rest =>
    match strPairs rest with
    | .ok m => .ok ((k, v) :: m)
    | .error e => .error e
  | (_, _) :: _ => .error "expected string map value"

/-- A required `HashMap<String, String>` field. -/
def reqStrMap (l : List (String × Json)) (k : String) :
    Except String (List (String × String)) :=
  match getOnce l k with
  | .ok (some (.obj m)) => strPairs m
  | .ok (some _) => .error ("invalid type for " ++ k)
  | .ok none => .error ("missing field " ++ k)
  | .error e => .error e

/-- Read the `"type"` tag of an internally tagged enum and return it with
the remaining (non-tag) pairs in order; a repeated tag is an error. -/
def splitTag (l : List (String × Json)) :
    Except String (String × List (String × Json)) :=
  match getOnce l "type" with
  | .ok (some (.str t)) => .ok (t, l.filter (fun p => !(p.1 == "type")))
  | .ok (some _) => .error "tag must be a string"
  | .ok none => .error "missing field type"
  | .error e => .error e

/-- Deserialization of `BodyContent`. -/
def deserializeBodyContent (j : Json) : Except String BodyContent :=
  match j with
  | .obj l =>
    match splitTag l with
    | .ok ("Text", c) =>
      (match reqStr c "data" with
        | .ok d => .ok (.text d)
        | .error e => .error e)
    | .ok ("Binary", c) =>
      (match reqStr c "data" with
        | .ok d => .ok (.binary d)
        | .error e => .error e)
    | .ok ("Truncated", c) =>
      (match reqStr c "preview", reqStr c "reason" with
        | .ok p, .ok r => .ok (.truncated p r)
        | .error e, _ => .error e
        | _, .error e => .error e)
    | .ok ("DecompressionFailed", c) =>
      (match reqStr c "error" with
        | .ok d => .ok (.decompressionFailed d)
        | .error e => .error e)
    | .ok ("Empty", _) => .ok .empty
    | .ok (_, _) => .error "unknown variant"
    | .error e => .error e
  | _ => .error "expected object"

/-- Deserialization of `BodyData`. -/
def deserializeBodyData (j : Json) : Except String BodyData :=
  match j with
  | .obj l =>
    match optStrField l "original_encoding", optStrField l "content_type",
        reqNat l "size_bytes", reqNat l "stored_size_bytes",
        reqBool l "truncated",
        (match getOnce l "content" with
          | .ok (some cj) => deserializeBodyContent cj
          | .ok none => .error "missing field content"
          | .error e => .error e) with
    | .ok oe, .ok ct, .ok sb, .ok ssb, .ok tr, .ok c =>
      .ok { original_encoding := oe, content_type := ct, size_bytes := sb,
            stored_size_bytes := ssb, truncated := tr, content := c }
    | .error e, _, _, _, _, _ => .error e
    | _, .error e, _, _, _, _ => .error e
    | _, _, .error e, _, _, _ => .error e
    | _, _, _, .error e, _, _ => .error e
    | _, _, _, _, .error e, _ => .error e
    | _, _, _, _, _, .error e => .error e
  | _ => .error "expected object"

/-- Deserialization of `UrlComponents`. -/
def deserializeUrlComponents (j : Json) : Except String UrlComponents :=
  match j with
  | .obj l =>
    match reqStr l "scheme", reqStr l "host", optNatField l "port",
        reqStr l "path", reqStrMap l "query_params" with
    | .ok s, .ok h, .ok po, .ok pa, .ok q =>
      .ok { scheme := s, host := h, port := po, path := pa,
            query_params := q }
    | .error e, _, _, _, _ => .error e
    | _, .error e, _, _, _ => .error e
    | _, _, .error e, _, _ => .error e
    | _, _, _, .error e, _ => .error e
    | _, _, _, _, .error e => .error e
  | _ => .error "expected object"

/-- Deserialization of `McpLogEvent` from the tag's content pairs. -/
def deserializeMcp (c : List (String × Json)) : Except String McpLogEvent :=
  match reqStr c "level", reqStr c "message" with
  | .ok lvl, .ok msg => .ok { level := lvl, message := msg }
  | .error e, _ => .error e
  | _, .error e => .error e

/-- Deserialization of `ProxyDebugEvent`. -/
def deserializeProxyDebug (c : List (String × Json)) :
    Except String ProxyDebugEvent :=
  match reqStr c "level", reqStr c "message", optStrField c "module",
      optStrField c "target", optStrField c "file", optNatField c "line" with
  | .ok lvl, .ok msg, .ok mo, .ok ta, .ok fi, .ok li =>
    .ok { level := lvl, message := msg, module := mo, target := ta,
          file := fi, line := li }
  | .error e, _, _, _, _, _ => .error e
  | _, .error e, _, _, _, _ => .error e
  | _, _, .error e, _, _, _ => .error e
  | _, _, _, .error e, _, _ => .error e
  | _, _, _, _, .error e, _ => .error e
  | _, _, _, _, _, .error e => .error e

/-- The field names of `HookLogEvent` (besides the flattened map). -/
def hookKnownKeys : List String :=
  ["event_type", "tool_name", "tool_input", "transcript_path", "cwd"]

/-- Deserialization of `HookLogEvent`: named fields by key, every other
pair collected into `extra` in order. -/
def deserializeHook (c : List (String × Json)) : Except String HookLogEvent :=
  match reqStr c "event_type", optStrField c "tool_name",
      optValField c "tool_input", optStrField c "transcript_path",
      optStrField c "cwd" with
  | .ok et, .ok tn, .ok ti, .ok tp, .ok cw =>
    .ok { event_type := et, tool_name := tn, tool_input := ti,
          transcript_path := tp, cwd := cw,
          extra := c.filter (fun p => !(hookKnownKeys.contains p.1)) }
  | .error e, _, _, _, _ => .error e
  | _, .error e, _, _, _ => .error e
  | _, _, .error e, _, _ => .error e
  | _, _, _, .error e, _ => .error e
  | _, _, _, _, .error e => .error e

/-- Deserialization of `ProxyRequestEvent`. -/
def deserializeProxyRequest (c : List (String × Json)) :
    Except String ProxyRequestEvent :=
  match reqStr c "id", reqStr c "method", reqStr c "uri",
      reqStrMap c "headers",
      (match getOnce c "body" with
        | .ok (some bj) => deserializeBodyData bj
        | .ok none => .error "missing field body"
        | .error e => .error e),
      optNatField c "tls_handshake_ms",
      ((match getOnce c "url_components" with
        | .ok none => .ok none
        | .ok (some .null) => .ok none
        | .ok (some uj) =>
          (match deserializeUrlComponents uj with
            | .ok u => .ok (some u)
            | .error e => .error e)
        | .error e => .error e) : Except String (Option UrlComponents)),
      optStrField c "curl_command", optStrField c "endpoint_pattern",
      optStrField c "api_version" with
  | .ok i, .ok me, .ok ur, .ok he, .ok bo, .ok tl, .ok uc, .ok cu, .ok ep,
      .ok av =>
    .ok { id := i, method := me, uri := ur, headers := he, body := bo,
          tls_handshake_ms := tl, url_components := uc, curl_command := cu,
          endpoint_pattern := ep, api_version := av }
  | .error e, _, _, _, _, _, _, _, _, _ => .error e
  | _, .error e, _, _, _, _, _, _, _, _ => .error e
  | _, _, .error e, _, _, _, _, _, _, _ => .error e
  | _, _, _, .error e, _, _, _, _, _, _ => .error e
  | _, _, _, _, .error e, _, _, _, _, _ => .error e
  | _, _, _, _, _, .error e, _, _, _, _ => .error e
  | _, _, _, _, _, _, .error e, _, _, _ => .error e
  | _, _, _, _, _, _, _, .error e, _, _ => .error e
  | _, _, _, _, _, _, _, _, .error e, _ => .error e
  | _, _, _, _, _, _, _, _, _, .error e => .error e

/-- Deserialization of `ProxyResponseEvent`. -/
def deserializeProxyResponse (c : List (String × Json)) :
    Except String ProxyResponseEvent :=
  match reqStr c "request_id", reqNat c "status", reqStrMap c "headers",
      (match getOnce c "body" with
        | .ok (some bj) => deserializeBodyData bj
        | .ok none => .error "missing field body"
        | .error e => .error e),
      reqNat c "duration_ms" with
  | .ok ri, .ok st, .ok he, .ok bo, .ok du =>
    .ok { request_id := ri, status := st, headers := he, body := bo,
          duration_ms := du }
  | .error e, _, _, _, _ => .error e
  | _, .error e, _, _, _ => .error e
  | _, _, .error e, _, _ => .error e
  | _, _, _, .error e, _ => .error e
  | _, _, _, _, .error e => .error e

/-- Deserialization of `LogEvent`. -/
def deserializeLogEvent (j : Json) : Except String LogEvent :=
  match j with
  | .obj l =>
    match splitTag l with
    | .ok ("Mcp", c) =>
      (match deserializeMcp c with
        | .ok e => .ok (.mcp e)
        | .error e => .error e)
    | .ok ("Hook", c) =>
      (match deserializeHook c with
        | .ok e => .ok (.hook e)
        | .error e => .error e)
    | .ok ("ProxyRequest", c) =>
      (match deserializeProxyRequest c with
        | .ok e => .ok (.proxyRequest e)
        | .error e => .error e)
    | .ok ("ProxyResponse", c) =>
      (match deserializeProxyResponse c with
        | .ok e => .ok (.proxyResponse e)
        | .error e => .error e)
    | .ok ("ProxyDebug", c) =>
      (match deserializeProxyDebug c with
        | .ok e => .ok (.proxyDebug e)
        | .error e => .error e)
    | .ok (_, _) => .error "unknown variant"
    | .error e => .error e
  | _ => .error "expected object"

/-- Deserialization of `LogEntry`. -/
def deserializeLogEntry (j : Json) : Except String LogEntry :=
  match j with
  | .obj l =>
    match reqNat l "schema_version", reqStr l "timestamp", reqStr l "date",
        reqStr l "session_id", reqStr l "correlation_id",
        (match getOnce l "event" with
          | .ok (some ej) => deserializeLogEvent ej
          | .ok none => .error "missing field event"
          | .error e => .error e) with
    | .ok sv, .ok ts, .ok da, .ok si, .ok co, .ok ev =>
      .ok { schema_version := sv, timestamp := ts, date := da,
            session_id := si, correlation_id := co, event := ev }
    | .error e, _, _, _, _, _ => .error e
    | _, .error e, _, _, _, _ => .error e
    | _, _, .error e, _, _, _ => .error e
    | _, _, _, .error e, _, _ => .error e
    | _, _, _, _, .error e, _ => .error e
    | _, _, _, _, _, .error e => .error e
  | _ => .error "expected object"

/-! ## Null/absent normalization and the constructed-entry predicate -/

/-- Normalize the one `Option<serde_json::Value>` field, identifying
`Some(Null)` with `None` — the JSON-null/absent equivalence of the
round-trip claim. -/
def normalizeEvent : LogEvent → LogEvent
  | .hook h =>
    .hook { h with tool_input :=
      match h.tool_input with
      | some .null => none
      | o => o }
  | e => e

/-- Normalization of a whole entry. -/
def normalizeEntry (e : LogEntry) : LogEntry :=
  { e with event := normalizeEvent e.event }

/-- Entries produced by the five `LogEntry` constructors. -/
inductive Constructed : LogEntry → Prop where
  | mcp (now date uuid sid lvl msg : String) :
    Constructed (LogEntry.new_mcp now date uuid sid lvl msg)
  | hook (now date uuid sid et : String) (tn : Option String)
      (ti : Option Json) (tp cw : Option String)
      (extra : List (String × Json)) :
    Constructed (LogEntry.new_hook now date uuid sid et tn ti tp cw extra)
  | proxyRequest (now date sid cid rid method uri : String)
      (headers : List (String × String)) (body : BodyData)
      (tls : Option Nat) (uc : Option UrlComponents)
      (curl ep av : Option String) :
    Constructed (LogEntry.new_proxy_request now date sid cid rid method uri
      headers body tls uc curl ep av)
  | proxyResponse (now date sid cid rid : String) (status : Nat)
      (headers : List (String × String)) (body : BodyData) (dur : Nat) :
    Constructed (LogEntry.new_proxy_response now date sid cid rid status
      headers body dur)
  | proxyDebug (now date uuid sid lvl msg : String)
      (module target file : Option String) (line : Option Nat) :
    Constructed (LogEntry.new_proxy_debug now date uuid sid lvl msg module
      target file line)

/-- Keys a hook `extra` map must avoid for the serialized form to be
readable: the enum tag and the named `HookLogEvent` fields. -/
def hookReservedKeys : List String := "type" :: hookKnownKeys

/-- Whether the entry's hook `extra` map (if any) avoids the reserved
keys. -/
def entryExtraOk (e : LogEntry) : Bool :=
  match e.event with
  | .hook h => h.extra.all (fun p => !(hookReservedKeys.contains p.1))
  | _ => true

/-! ## API version extraction (src/proxy_server.rs, `extract_api_version`)

`uri.path()` is passed in as a string; `char::is_numeric` is modelled as
`Char.isDigit` (they agree on ASCII, and the version segments at issue are
ASCII). -/

/-- Rust `str::split('/')`: the pieces between slashes, with empty pieces
kept. -/
def splitOnSlash : List Char → List (List Char)
  | [] => [[]]
  | c :: rest =>
    if c == '/' then [] :: splitOnSlash rest
    else
      match splitOnSlash rest with
      | p :: ps => (c :: p) :: ps
      | [] => [[c]]

/-- The segment predicate of the source:
`s.starts_with('v') && s[1..].chars().all(|c| c.is_numeric() || c == '.')`.
The remainder check on an empty remainder is vacuously true, so a bare
`v` segment satisfies it. -/
def segMatchesVersion (seg : List Char) : Bool :=
  match seg with
  | [] => false
  | c :: rest => c == 'v' && rest.all (fun ch => ch.isDigit || ch == '.')

/-- Model of `HashMap::get`: exact, case-sensitive key lookup. -/
def hGet (headers : List (String × String)) (k : String) : Option String :=
  (headers.find? (fun p => p.1 == k)).map Prod.snd

/-- Model of `ProxyServer::extract_api_version`. -/
def extract_api_version (path : String) (headers : List (String × String)) :
    Option String :=
  match (splitOnSlash path.data).find? segMatchesVersion with
  | some seg => some (String.mk seg)
  | none =>
    match hGet headers "anthropic-version" with
    | some v => some v
    | none => hGet headers "api-version"

/-- The claim's segment pattern `v[0-9.]+`: at least one digit or dot
must follow the `v`. -/
def claimSegMatch (seg : List Char) : Bool :=
  match seg with
  | [] => false
  | c :: rest =>
    c == 'v' && !rest.isEmpty && rest.all (fun ch => ch.isDigit || ch == '.')

/-- The claim's case-insensitive header lookup. -/
def hGetCI (headers : List (String × String)) (k : String) : Option String :=
  (headers.find? (fun p => rustToLowercase p.1 == k)).map Prod.snd

/-- The extraction as the claim words it: first `v[0-9.]+` segment, else
case-insensitive `anthropic-version`, else case-insensitive
`api-version`, else none. -/
def claim_extract_api_version (path : String)
    (headers : List (String × String)) : Option String :=
  match (splitOnSlash path.data).find? claimSegMatch with
  | some seg => some (String.mk seg)
  | none =>
    match hGetCI headers "anthropic-version" with
    | some v => some v
    | none => hGetCI headers "api-version"

/-- The amended-claim extraction: first segment consisting of `v`
followed by zero or more digits or dots (a bare `v` matches), else the
`anthropic-version` header, else the `api-version` header, both looked up
by exact case-sensitive key equality (callers pass lowercased hyper
header names), else none. -/
def amended_extract_api_version (path : String)
    (headers : List (String × String)) : Option String :=
  match (splitOnSlash path.data).find?
      (fun seg => match seg with
        | [] => false
        | c :: rest => c == 'v' && rest.all (fun ch => ch.isDigit || ch == '.')) with
  | some seg => some (String.mk seg)
  | none =>
    match hGet headers "anthropic-version" with
    | some v => some v
    | none => hGet headers "api-version"

/-! ## Proxy configuration (src/proxy_config.rs) -/

/-- Model of `RecordingConfig`.  `output_dir` is the path string; the
default's home-relative path is abbreviated. -/
structure RecordingConfig where
  output_dir : String
  pretty_print : Bool
  include_bodies : Bool
  max_body_size : Nat

/-- Model of `impl Default for RecordingConfig`. -/
def RecordingConfig.default : RecordingConfig :=
  { output_dir := "~/.local-logger", pretty_print := true,
    include_bodies := true, max_body_size := 10 * 1024 * 1024 }

/-- The slice of `ProxyConfig` the forwarding path reads. -/
structure ProxyConfig where
  recording : RecordingConfig

/-! ## Request forwarding and logging (src/proxy_server.rs,
`forward_request` / `log_request` / `log_response`)

The model determinizes the effects of the Rust function:
- `Uuid::new_v4()` / `Utc::now()` become the `request_id`, `session_id`,
  `now`, `date` parameters (the code sets `correlation_id =
  session_id.to_string()`);
- the collected request body and the upstream exchange become `Except`
  parameters (`body_collect` models `req.collect().await?`, `upstream`
  models the client send plus response-body collection, either of which
  the code propagates with `?`);
- `parse_url_components`, `generate_curl_command` and
  `detect_endpoint_pattern` work on the hyper `Uri`, which is not
  modelled; their results are passed in (`url_components`,
  `curl_command`, `endpoint_pattern`);
- the returned list is the sequence of entries handed to
  `LogWriter::write_async`, in order (the code discards write errors). -/

/-- Per-request data cloned from the incoming request.  `path` is
`uri.path()`. -/
structure RequestData where
  method : String
  uri : String
  path : String
  headers : List (String × String)

/-- The upstream response parts the code reads. -/
structure ResponseData where
  status : Nat
  headers : List (String × String)
  body : List Nat

/-- Model of `ProxyServer::log_request`: redacts headers, derives body
metadata from the `content-encoding` / `content-type` headers (hyper
lowercases header names), extracts the API version, and builds the
`ProxyRequest` entry with `tls_handshake_ms = None` and the curl command
always present. -/
def log_request (gz : List Nat → Except String (List Nat))
    (cfg : RecordingConfig) (session_id correlation_id request_id : String)
    (now date : String) (r : RequestData) (body : List Nat)
    (url_components : Option UrlComponents) (curl_command : String)
    (endpoint_pattern : Option String) : LogEntry :=
  let content_encoding := hGet r.headers "content-encoding"
  let content_type := hGet r.headers "content-type"
  let redacted_headers := redact_sensitive_headers r.headers
  let api_version := extract_api_version r.path r.headers
  let body_data := BodyData.from_bytes gz body content_encoding content_type
    cfg.max_body_size
  LogEntry.new_proxy_request now date session_id correlation_id request_id
    r.method r.uri redacted_headers body_data none url_components
    (some curl_command) endpoint_pattern api_version

/-- Model of `ProxyServer::log_response`. -/
def log_response (gz : List Nat → Except String (List Nat))
    (cfg : RecordingConfig) (session_id correlation_id request_id : String)
    (now date : String) (resp : ResponseData) (duration_ms : Nat) :
    LogEntry :=
  let content_encoding := hGet resp.headers "content-encoding"
  let content_type := hGet resp.headers "content-type"
  let redacted_headers := redact_sensitive_headers resp.headers
  let body_data := BodyData.from_bytes gz resp.body content_encoding
    content_type cfg.max_body_size
  LogEntry.new_proxy_response now date session_id correlation_id request_id
    resp.status redacted_headers body_data duration_ms

/-- Model of `ProxyServer::forward_request`: collect the body (`?`), log
the request when `include_bodies`, send upstream (`?` — an upstream
failure propagates the error out of the function: no response is
synthesized and nothing further is logged), log the response when
`include_bodies`, and relay the response.  The second component is the
list of entries written to the log, in order. -/
def forward_request (gz : List Nat → Except String (List Nat))
    (config : ProxyConfig) (request_id session_id now date : String)
    (req : RequestData) (body_collect : Except String (List Nat))
    (url_components : Option UrlComponents) (curl_command : String)
    (endpoint_pattern : Option String)
    (upstream : Except String ResponseData) (duration_ms : Nat) :
    Except String ResponseData × List LogEntry :=
  let correlation_id := session_id
  match body_collect with
  | .error e => (.error e, [])
  | .ok body_bytes =>
    let req_events :=
      if config.recording.include_bodies then
        [log_request gz config.recording session_id correlation_id
          request_id now date req body_bytes url_components curl_command
          endpoint_pattern]
      else []
    match upstream with
    | .error e => (.error e, req_events)
    | .ok resp =>
      let resp_events :=
        if config.recording.include_bodies then
          [log_response gz config.recording session_id correlation_id
            request_id now date resp duration_ms]
        else []
      (.ok resp, req_events ++ resp_events)

/-- Whether an entry is a `ProxyResponse` event. -/
def isProxyResponseEntry (e : LogEntry) : Bool :=
  match e.event with
  | .proxyResponse _ => true
  | _ => false

/-- Whether an entry is a `ProxyRequest` event. -/
def isProxyRequestEntry (e : LogEntry) : Bool :=
  match e.event with
  | .proxyRequest _ => true
  | _ => false

/-- Whether an entry is a `ProxyDebug` event. -/
def isProxyDebugEntry (e : LogEntry) : Bool :=
  match e.event with
  | .proxyDebug _ => true
  | _ => false

/-- Model of `JsonlTracingLayer::on_event` (src/jsonl_tracing_layer.rs):
every tracing event that passes the INFO filter becomes a `ProxyDebug`
entry, built with the layer's own session id, the event's level and
formatted message, the last `::` segment of the target as the module
name, and the call-site target/file/line; it is written through the same
`LogWriter` (and daily file) as the proxy body events. -/
def tracing_layer_entry (now date uuid tracing_session : String)
    (level message : String) (module target file : Option String)
    (line : Option Nat) : LogEntry :=
  LogEntry.new_proxy_debug now date uuid tracing_session level message
    module target file line

/-- Model of `ProxyServer::proxy_request` on the plain-HTTP path with the
`JsonlTracingLayer` installed by `run_proxy_server` (src/main.rs): the
unconditional `tracing::info!` of `proxy_request` is appended as a
`ProxyDebug` entry before `forward_request` runs, and the `map_err`
around the upstream send fires `tracing::error!` (a second `ProxyDebug`
entry, reached only when the body was collected) before the error
propagates.  The nondeterministic timestamps and uuids of the two layer
entries are the `t*` and `e*` parameters; the hyper error's `Debug`
rendering is the error string of the embedding.  The second component is
the full list of entries appended to the log, in order. -/
def proxy_request_with_tracing (gz : List Nat → Except String (List Nat))
    (config : ProxyConfig) (request_id session_id now date : String)
    (tracing_session tuuid tnow tdate enow edate euuid : String)
    (req : RequestData) (body_collect : Except String (List Nat))
    (url_components : Option UrlComponents) (curl_command : String)
    (endpoint_pattern : Option String)
    (upstream : Except String ResponseData) (duration_ms : Nat) :
    Except String ResponseData × List LogEntry :=
  let info := tracing_layer_entry tnow tdate tuuid tracing_session "INFO"
    (req.method ++ " " ++ req.uri) (some "proxy_server")
    (some "local_logger::proxy_server") (some "src/proxy_server.rs")
    (some 111)
  let fwd := forward_request gz config request_id session_id now date req
    body_collect url_components curl_command endpoint_pattern upstream
    duration_ms
  let err_events :=
    match body_collect, upstream with
    | .ok _, .error e =>
      [tracing_layer_entry enow edate euuid tracing_session "ERROR"
        ("Failed to forward request to " ++ req.uri ++ ": " ++ e)
        (some "proxy_server") (some "local_logger::proxy_server")
        (some "src/proxy_server.rs") (some 368)]
    | _, _ => []
  (fwd.1, info :: (fwd.2 ++ err_events))

/-! ## Reverse tail reader (src/tail_reader.rs, `read_last_n_lines`)

The file is its byte list; `parse` models the composite
`str::from_utf8` + `serde_json::from_str::<LogEntry>` line parser
(returning `none` on any parse failure, which the code silently skips).
The Rust `entries` vector is carried as a reversed accumulator (`push`
is `cons`); the final drain keeps the last `n`, which on the reversed
accumulator is `take n` then `reverse`.  The chunk loop, which Rust
writes as `while offset > 0`, is given explicit fuel; `fuel = file size`
dominates the iteration count (each iteration lowers `offset` by at least
one), so the fuelled function equals the loop. -/

/-- The 64 KiB chunk size of the reader. -/
def CHUNK_SIZE : Nat := 64 * 1024

/-- Tail-recursive list length (the model of `file.metadata()?.len()`). -/
def listLen {α : Type} : List α → Nat → Nat
  | [], acc => acc
  | _ :: rest, acc => listLen rest (acc + 1)

/-- The inner scan of one rolling buffer: walk the bytes, and at each
newline parse the segment since the previous newline (skipping empty
segments and parse failures, pushing parsed entries); return the grown
reversed entry accumulator and the trailing incomplete segment that Rust
keeps as the next iteration's buffer. -/
def scanBuffer {α : Type} (parse : List Nat → Option α) :
    List Nat → List Nat → List α → List α × List Nat
  | [], cur, accRev => (accRev, cur.reverse)
  | b :: rest, cur, accRev =>
    if b == 10 then
      if cur.isEmpty then scanBuffer parse rest [] accRev
      else
        match parse cur.reverse with
        | some e => scanBuffer parse rest [] (e :: accRev)
        | none => scanBuffer parse rest [] accRev
    else scanBuffer parse rest (b :: cur) accRev

/-- The chunk loop of `read_last_n_lines`: while `offset > 0`, read the
`min(CHUNK_SIZE, offset)` bytes ending at `offset`, prepend them to the
rolling buffer, scan, and stop early once at least `n` entries are
collected. -/
def tailLoop {α : Type} (parse : List Nat → Option α) (file : List Nat)
    (n : Nat) : Nat → Nat → List Nat → List α → List α
  | 0, _, _, accRev => accRev
  | fuel + 1, offset, buffer, accRev =>
    if offset == 0 then accRev
    else
      let read_size := min CHUNK_SIZE offset
      let offset' := offset - read_size
      let chunk := (file.drop offset').take read_size
      let buf := chunk ++ buffer
      let res := scanBuffer parse buf [] accRev
      if n ≤ listLen res.1 0 then res.1
      else tailLoop parse file n fuel offset' res.2 res.1

/-- Model of `read_last_n_lines`. -/
def read_last_n_lines {α : Type} (parse : List Nat → Option α)
    (file : List Nat) (n : Nat) : List α :=
  let file_size := listLen file 0
  let entriesRev := tailLoop parse file n file_size file_size [] []
  if n < listLen entriesRev 0 then (entriesRev.take n).reverse
  else entriesRev.reverse

/-- A well-formed serialized event line: 999 content bytes and a
newline. -/
def tailDemoLine : List Nat := List.replicate 999 97 ++ [10]

/-- A 66,000-byte file of 66 well-formed events — larger than one
64 KiB chunk, with the first event's bytes straddling the chunk
boundary. -/
def tailDemoFile : List Nat := (List.replicate 66 tailDemoLine).flatten

/-- The line parser for the demo file: exactly the 999-byte content
parses (as serde would parse the full JSON line); every fragment of it
fails (as serde rejects a truncated JSON document). -/
def tailDemoParse (l : List Nat) : Option Unit :=
  if l = List.replicate 999 97 then some () else none

/-! ## Theorems for the body classification (C1) -/

/-- Claim C1: `BodyData::from_bytes` is total (the embedding returns a
`BodyData` for every input), selects the content variant by the claim's
decision order — gzip attempt on an encoding mentioning gzip, decode
failure to `DecompressionFailed`, then empty / oversize / UTF-8 text /
base64 binary on the effective bytes — and `size_bytes` is always the
original pre-decompression length. -/
theorem from_bytes_decision_order
    (gz : List Nat → Except String (List Nat)) (bytes : List Nat)
    (enc ct : Option String) (max_size : Nat) :
    (BodyData.from_bytes gz bytes enc ct max_size).size_bytes = bytes.length ∧
    classOfContent (BodyData.from_bytes gz bytes enc ct max_size).content =
      claimBodyClass gz bytes enc max_size := by
  have rest : ∀ (enc' : Option String) (w : List Nat),
      classOfContent
        (if w.isEmpty then
          { original_encoding := enc', content_type := ct,
            size_bytes := bytes.length, stored_size_bytes := 0,
            truncated := false, content := BodyContent.empty }
        else if max_size < w.length then
          { original_encoding := enc', content_type := ct,
            size_bytes := bytes.length,
            stored_size_bytes :=
              strBytes (String.mk (utf8Lossy (w.take (min max_size 1024)))),
            truncated := true,
            content := BodyContent.truncated
              (String.mk (utf8Lossy (w.take (min max_size 1024))))
              ("Body size " ++ natString w.length ++ " exceeds max " ++
                natString max_size) }
        else
          match utf8Decode w with
          | some cs =>
            { original_encoding := enc', content_type := ct,
              size_bytes := bytes.length,
              stored_size_bytes := strBytes (String.mk cs),
              truncated := false, content := BodyContent.text (String.mk cs) }
          | none =>
            { original_encoding := enc', content_type := ct,
              size_bytes := bytes.length,
              stored_size_bytes := strBytes (String.mk (b64Encode w)),
              truncated := false,
              content := BodyContent.binary (String.mk (b64Encode w)) } :
          BodyData).content = claimEffective w max_size := by
    intro enc' w
    by_cases he : w.isEmpty
    · simp [claimEffective, he, List.isEmpty_iff.mp he, classOfContent]
    · have he' : ¬(w = []) := fun h => he (by simp [h])
      by_cases ht : max_size < w.length
      · simp [claimEffective, he, he', ht, classOfContent]
      · cases hu : utf8Decode w <;>
          simp [claimEffective, he, he', ht, hu, classOfContent]
  rcases hd : decompressionDecision gz bytes enc with ⟨dopt, derr⟩
  have hclaim : claimBodyClass gz bytes enc max_size =
      (match derr with
        | some _ => BodyClass.decompFail
        | none => claimEffective (dopt.getD bytes) max_size) := by
    cases enc with
    | none =>
      simp only [decompressionDecision] at hd
      cases hd
      rfl
    | some e =>
      by_cases hg : strContainsSub e "gzip" = true
      · cases hz : gz bytes with
        | ok d =>
          simp only [decompressionDecision, hg, if_true, hz] at hd
          cases hd
          simp [claimBodyClass, hg, hz]
        | error er =>
          simp only [decompressionDecision, hg, if_true, hz] at hd
          cases hd
          simp [claimBodyClass, hg, hz]
      · simp only [decompressionDecision, hg] at hd
        cases hd
        simp [claimBodyClass, hg]
  rw [hclaim]
  cases derr with
  | some er =>
    exact ⟨by simp [BodyData.from_bytes, hd],
      by simp [BodyData.from_bytes, hd, classOfContent]⟩
  | none =>
    refine ⟨?_, ?_⟩
    · simp only [BodyData.from_bytes, hd]
      split
      · rfl
      · split
        · rfl
        · split <;> rfl
    · simpa only [BodyData.from_bytes, hd] using rest enc (dopt.getD bytes)

/-! ## Theorems for header redaction (C2) -/

/-- Claim C2: redaction keeps every key verbatim, leaves non-sensitive
values unchanged, replaces sensitive values (lowercase-compared against
the fixed list) with `[REDACTED]`, and keeps the scheme of a spaced
authorization value as `[REDACTED:<scheme>]`; for example
`Authorization: Bearer xyz` becomes `[REDACTED:Bearer]`. -/
theorem redact_sensitive_headers_matches_claim
    (headers : List (String × String)) :
    redact_sensitive_headers headers =
      headers.map (fun p => (p.1, claimRedactValue p.1 p.2)) ∧
    (redact_sensitive_headers headers).map Prod.fst = headers.map Prod.fst ∧
    redact_sensitive_headers [("Authorization", "Bearer xyz")] =
      [("Authorization", "[REDACTED:Bearer]")] := by
  have hpt : ∀ p : String × String,
      (let key_lower := rustToLowercase p.1
      if SENSITIVE_HEADERS.contains key_lower then
        let redacted_value :=
          if key_lower == "authorization" && p.2.data.contains ' ' then
            "[REDACTED:" ++ splitnSpaceFirst p.2 ++ "]"
          else
            "[REDACTED]"
        (p.1, redacted_value)
      else
        (p.1, p.2)) = (p.1, claimRedactValue p.1 p.2) := by
    intro p
    by_cases h : rustToLowercase p.1 ∈ SENSITIVE_HEADERS <;>
      simp [claimRedactValue, splitnSpaceFirst, h]
  have hmap : redact_sensitive_headers headers =
      headers.map (fun p => (p.1, claimRedactValue p.1 p.2)) := by
    induction headers with
    | nil => rfl
    | cons p t ih =>
      simp only [redact_sensitive_headers, List.map_cons] at ih ⊢
      rw [← ih, hpt p]
  refine ⟨hmap, ?_, by decide⟩
  rw [hmap, List.map_map]
  rfl

/-! ## Lossy-decoding bounds (C8) -/

set_option maxHeartbeats 1000000 in
/-- Lossy decoding never yields more characters than input bytes: every
emitted character, including each replacement character, consumes at least
one input byte. -/
theorem utf8Lossy_length_le (l : List Nat) : (utf8Lossy l).length ≤ l.length := by
  induction l using utf8Lossy.induct
  all_goals rw [utf8Lossy.eq_def]
  all_goals simp_all
  all_goals (split_ifs <;> simp_all <;> omega)

/-- Amended claim C8: whenever `from_bytes` returns `Truncated`, the
preview is the lossy UTF-8 decoding of at most the first
`min(max_size, 1024)` effective bytes, hence always valid text of at most
1024 characters.  (Its byte length is not bounded by 1024: each invalid
input byte can become a three-byte replacement character, see the
counterexample.) -/
theorem from_bytes_truncated_preview_char_bound
    (gz : List Nat → Except String (List Nat)) (bytes : List Nat)
    (enc ct : Option String) (max_size : Nat) :
    previewCharLen (BodyData.from_bytes gz bytes enc ct max_size).content ≤ 1024 := by
  rcases hd : decompressionDecision gz bytes enc with ⟨dopt, derr⟩
  cases derr with
  | some er => simp [BodyData.from_bytes, hd, previewCharLen]
  | none =>
    simp only [BodyData.from_bytes, hd]
    split
    · simp [previewCharLen]
    · split
      · simp only [previewCharLen]
        calc (utf8Lossy ((dopt.getD bytes).take (min max_size 1024))).length
            ≤ ((dopt.getD bytes).take (min max_size 1024)).length :=
              utf8Lossy_length_le _
          _ ≤ min max_size 1024 := List.length_take_le _ _
          _ ≤ 1024 := Nat.min_le_right _ _
      · split <;> simp [previewCharLen]

set_option maxRecDepth 100000 in
/-- Counterexample to claim C8 as stated: 1025 bytes `0xFF` under
`max_size = 1024` yield a `Truncated` preview of 1024 replacement
characters, whose UTF-8 byte length is 3072, exceeding the claimed 1 KiB
byte bound. -/
theorem from_bytes_truncated_preview_byte_overflow :
    previewByteLen ((BodyData.from_bytes (fun _ => .error "e")
        (List.replicate 1025 255) none none 1024).content) = 3072 ∧
    1024 < previewByteLen ((BodyData.from_bytes (fun _ => .error "e")
        (List.replicate 1025 255) none none 1024).content) := by
  exact ⟨rfl, by decide⟩

theorem valuesFor_append (a b : List (String × Json)) (k : String) :
    valuesFor (a ++ b) k = valuesFor a k ++ valuesFor b k := by
  simp [valuesFor, List.filter_append]

/-! ## Optional-field serialization policy (C7) -/

/-- Counterexample to claim C7 as stated: a `ProxyDebug` entry with an
absent `module`, a `ProxyRequest` entry with an absent
`tls_handshake_ms`, and a `Hook` entry with an absent `tool_name` all
serialize those keys with a JSON `null` value — only the four
`skip_serializing_if` fields are omitted. -/
theorem serialized_event_contains_null_value :
    valuesFor (eventFields (LogEntry.new_proxy_debug "t" "d" "u" "s" "INFO"
      "m" none none none none)) "module" = [Json.null] ∧
    valuesFor (eventFields (LogEntry.new_proxy_request "t" "d" "s" "c" "r"
      "GET" "https://h/" [] sampleBody none none none none none))
      "tls_handshake_ms" = [Json.null] ∧
    valuesFor (eventFields (LogEntry.new_hook "t" "d" "u" "s" "PreToolUse"
      none none none none [])) "tool_name" = [Json.null] := by
  exact ⟨rfl, rfl, rfl⟩

/-- Amended claim C7: the four `ProxyRequest` fields marked
`skip_serializing_if` (`url_components`, `curl_command`,
`endpoint_pattern`, `api_version`) are omitted when absent and, when
present, carry a non-null value; every other optional field —
`tls_handshake_ms` on `ProxyRequest`, `tool_name`/`tool_input`/
`transcript_path`/`cwd` on `Hook`, `module`/`target`/`file`/`line` on
`ProxyDebug` — is emitted as JSON `null` when absent. -/
theorem serialize_optional_field_policy
    (now date uuid sid lvl msg : String)
    (module target file : Option String) (line : Option Nat)
    (cid rid method uri : String) (headers : List (String × String))
    (body : BodyData) (tls : Option Nat) (uc : Option UrlComponents)
    (curl ep av : Option String)
    (et : String) (tn : Option String) (ti : Option Json)
    (tp cwd : Option String) (extra : List (String × Json)) :
    (valuesFor (eventFields (LogEntry.new_proxy_debug now date uuid sid lvl
        msg module target file line)) "module" = [jOptStr module] ∧
      valuesFor (eventFields (LogEntry.new_proxy_debug now date uuid sid lvl
        msg module target file line)) "target" = [jOptStr target] ∧
      valuesFor (eventFields (LogEntry.new_proxy_debug now date uuid sid lvl
        msg module target file line)) "file" = [jOptStr file] ∧
      valuesFor (eventFields (LogEntry.new_proxy_debug now date uuid sid lvl
        msg module target file line)) "line" = [jOptNat line]) ∧
    (valuesFor (eventFields (LogEntry.new_proxy_request now date sid cid rid
        method uri headers body tls uc curl ep av)) "tls_handshake_ms" =
        [jOptNat tls] ∧
      valuesFor (eventFields (LogEntry.new_proxy_request now date sid cid rid
        method uri headers body tls uc curl ep av)) "url_components" =
        (match uc with
          | some u => [serializeUrlComponents u]
          | none => []) ∧
      valuesFor (eventFields (LogEntry.new_proxy_request now date sid cid rid
        method uri headers body tls uc curl ep av)) "curl_command" =
        (match curl with
          | some c => [Json.str c]
          | none => []) ∧
      valuesFor (eventFields (LogEntry.new_proxy_request now date sid cid rid
        method uri headers body tls uc curl ep av)) "endpoint_pattern" =
        (match ep with
          | some p => [Json.str p]
          | none => []) ∧
      valuesFor (eventFields (LogEntry.new_proxy_request now date sid cid rid
        method uri headers body tls uc curl ep av)) "api_version" =
        (match av with
          | some v => [Json.str v]
          | none => [])) ∧
    (valuesFor (eventFields (LogEntry.new_hook now date uuid sid et tn ti tp
        cwd extra)) "tool_name" = jOptStr tn :: valuesFor extra "tool_name" ∧
      valuesFor (eventFields (LogEntry.new_hook now date uuid sid et tn ti tp
        cwd extra)) "tool_input" =
        (match ti with
          | none => Json.null
          | some v => v) :: valuesFor extra "tool_input" ∧
      valuesFor (eventFields (LogEntry.new_hook now date uuid sid et tn ti tp
        cwd extra)) "transcript_path" =
        jOptStr tp :: valuesFor extra "transcript_path" ∧
      valuesFor (eventFields (LogEntry.new_hook now date uuid sid et tn ti tp
        cwd extra)) "cwd" = jOptStr cwd :: valuesFor extra "cwd") := by
  refine ⟨⟨rfl, rfl, rfl, rfl⟩, ⟨?_, ?_, ?_, ?_, ?_⟩, ⟨rfl, rfl, rfl, rfl⟩⟩
  all_goals cases uc <;> cases curl <;> cases ep <;> cases av <;> rfl

theorem digitChar_ne_nl (k : Nat) : digitChar k ≠ '\n' := by
  unfold digitChar
  have h : k % 10 < 10 := Nat.mod_lt _ (by omega)
  set m := k % 10 with hm
  interval_cases m <;> decide

theorem natChars_no_nl (n : Nat) : ('\n') ∉ natChars n := by
  induction n using natChars.induct with
  | case1 n h =>
    simp [natChars, h]
    exact fun hc => (digitChar_ne_nl n) hc.symm
  | case2 n h ih =>
    rw [natChars]
    simp [h, List.mem_append, ih]
    exact fun hc => (digitChar_ne_nl (n % 10)) hc.symm

theorem renderInt_no_nl (n : Int) : ('\n') ∉ renderInt n := by
  cases n with
  | ofNat m => simpa [renderInt] using natChars_no_nl m
  | negSucc m =>
    simp [renderInt]
    exact natChars_no_nl (m + 1)

theorem hexDigit_ne_nl (n : Nat) : hexDigit n ≠ '\n' := by
  unfold hexDigit
  rcases Nat.lt_or_ge n 16 with h | h
  · interval_cases n <;> decide
  · rw [List.getD_eq_default]
    · decide
    · simpa using h

theorem escapeChar_no_nl (c : Char) : ('\n') ∉ escapeChar c := by
  unfold escapeChar
  split_ifs with h1 h2 h3
  · decide
  · decide
  · split
    · decide
    · decide
    · decide
    · decide
    · decide
    · simp [hexDigit_ne_nl]
      exact ⟨fun hc => (hexDigit_ne_nl _) hc.symm, fun hc => (hexDigit_ne_nl _) hc.symm⟩
  · simp
    intro he
    rw [← he] at h3
    exact h3 (by decide)

theorem escapeChars_no_nl (cs : List Char) : ('\n') ∉ escapeChars cs := by
  induction cs with
  | nil => simp [escapeChars]
  | cons c rest ih =>
    simp only [escapeChars, List.mem_append]
    exact fun h => h.elim (fun hh => (escapeChar_no_nl c) hh) (fun hh => ih hh)

mutual

theorem render_no_nl (j : Json) : ('\n') ∉ renderJson j := by
  cases j with
  | null => simp [renderJson, jsonNullChars]
  | bool b =>
    cases b <;> simp [renderJson, jsonTrueChars, jsonFalseChars]
  | num n => simpa [renderJson] using renderInt_no_nl n
  | str s => simp [renderJson, escapeChars_no_nl s.data]
  | arr xs =>
    simp [renderJson]
    exact renderElems_no_nl xs
  | obj l =>
    simp [renderJson]
    exact renderMembers_no_nl l

theorem renderElems_no_nl (xs : List Json) : ('\n') ∉ renderElems xs := by
  match xs with
  | [] => simp [renderElems]
  | [x] => simpa [renderElems] using render_no_nl x
  | x :: y :: rest =>
    simp [renderElems, List.mem_append]
    exact ⟨render_no_nl x, renderElems_no_nl (y :: rest)⟩

theorem renderMembers_no_nl (l : List (String × Json)) :
    ('\n') ∉ renderMembers l := by
  match l with
  | [] => simp [renderMembers]
  | [(k, v)] =>
    simp [renderMembers, List.mem_append]
    exact ⟨escapeChars_no_nl k.data, render_no_nl v⟩
  | (k, v) :: y :: rest =>
    simp [renderMembers, List.mem_append]
    exact ⟨escapeChars_no_nl k.data, render_no_nl v, renderMembers_no_nl (y :: rest)⟩

end

theorem fsGet_fsSet_self (fs : List (String × List Char)) (p : String)
    (v : List Char) : fsGet (fsSet fs p v) p = some v := by
  induction fs with
  | nil => simp [fsGet, fsSet]
  | cons q rest ih =>
    by_cases h : q.1 == p
    · simp [fsGet, fsSet, h]
    · simp only [fsSet, h]
      simp only [Bool.false_eq_true, if_false]
      simp [fsGet, h, ih]

theorem fsGet_fsSet_other (fs : List (String × List Char)) (p q : String)
    (v : List Char) (h : (q == p) = false) :
    fsGet (fsSet fs p v) q = fsGet fs q := by
  induction fs with
  | nil =>
    simp [fsGet, fsSet]
    intro he
    rw [he] at h
    simp at h
  | cons r rest ih =>
    by_cases hr : r.1 == p
    · have hrq : (r.1 == q) = false := by
        have hp : r.1 = p := by simpa using hr
        have : ¬(q = p) := by simpa using h
        subst hp
        simp
        exact fun hq => this hq.symm
      simp [fsSet, fsGet, hr, hrq]
    · simp only [fsSet, hr, Bool.false_eq_true, if_false]
      by_cases hq : r.1 == q <;> simp [fsGet, hq, ih]

/-! ## Log-writer append theorem (C4) -/

/-- Claim C4: on success `write_sync` appends to
`<logs_dir>/<entry.date>.jsonl` exactly the single-line JSON serialization
of the entry followed by one newline byte, creating the file when missing
(the old content defaults to empty) and preserving existing content and
every other file; the serialized line itself contains no newline.  On an
injected I/O fault the error is returned to the caller and the file holds
the old content plus at most a prefix of the payload. -/
theorem write_sync_appends_single_line
    (fs : List (String × List Char)) (logs_dir : String) (entry : LogEntry)
    (f : IoFault) (q : String) :
    (write_sync fs logs_dir entry none).1 = .ok () ∧
    fsGet (write_sync fs logs_dir entry none).2
        (get_log_file_path logs_dir entry.date) =
      some (((fsGet fs (get_log_file_path logs_dir entry.date)).getD []) ++
        (renderJson (serializeLogEntry entry) ++ ['\n'])) ∧
    ((q == get_log_file_path logs_dir entry.date) = false →
      fsGet (write_sync fs logs_dir entry none).2 q = fsGet fs q) ∧
    (write_sync fs logs_dir entry (some f)).1 = .error f.msg ∧
    fsGet (write_sync fs logs_dir entry (some f)).2
        (get_log_file_path logs_dir entry.date) =
      some (((fsGet fs (get_log_file_path logs_dir entry.date)).getD []) ++
        (renderJson (serializeLogEntry entry) ++ ['\n']).take f.written) ∧
    ((q == get_log_file_path logs_dir entry.date) = false →
      fsGet (write_sync fs logs_dir entry (some f)).2 q = fsGet fs q) ∧
    ('\n') ∉ renderJson (serializeLogEntry entry) := by
  refine ⟨rfl, ?_, ?_, rfl, ?_, ?_, render_no_nl _⟩
  · exact fsGet_fsSet_self fs _ _
  · intro h
    exact fsGet_fsSet_other fs _ q _ h
  · exact fsGet_fsSet_self fs _ _
  · intro h
    exact fsGet_fsSet_other fs _ q _ h

/-! ## Round-trip lemmas (C6) -/

theorem strPairs_round (m : List (String × String)) :
    strPairs (m.map fun p => (p.1, Json.str p.2)) = .ok m := by
  induction m with
  | nil => rfl
  | cons p t ih => simp [strPairs, ih]

theorem deserializeBodyContent_round (c : BodyContent) :
    deserializeBodyContent (serializeBodyContent c) = .ok c := by
  cases c <;> rfl

theorem deserializeBodyData_round (b : BodyData) :
    deserializeBodyData (serializeBodyData b) = .ok b := by
  rcases b with ⟨oe, ct, sb, ssb, tr, c⟩
  cases oe <;> cases ct <;> cases c <;> rfl

theorem deserializeUrlComponents_round (u : UrlComponents) :
    deserializeUrlComponents (serializeUrlComponents u) = .ok u := by
  rcases u with ⟨s, h, po, pa, q⟩
  cases po <;>
    simp [serializeUrlComponents, deserializeUrlComponents, jStrMap, reqStr,
      optNatField, reqStrMap, getOnce, valuesFor, strPairs_round, jOptNat]

theorem deserializeMcp_round (e : McpLogEvent) :
    deserializeMcp (mcpFields e) = .ok e := rfl

theorem deserializeProxyDebug_round (e : ProxyDebugEvent) :
    deserializeProxyDebug (proxyDebugFields e) = .ok e := by
  rcases e with ⟨lvl, msg, mo, ta, fi, li⟩
  cases mo <;> cases ta <;> cases fi <;> cases li <;> rfl

theorem deserializeProxyResponse_round (e : ProxyResponseEvent) :
    deserializeProxyResponse (proxyResponseFields e) = .ok e := by
  rcases e with ⟨ri, st, he, bo, du⟩
  simp [proxyResponseFields, deserializeProxyResponse, jStrMap, reqStr,
    reqNat, reqStrMap, getOnce, valuesFor, strPairs_round,
    deserializeBodyData_round]

theorem jOptNat_none : jOptNat none = Json.null := rfl

theorem jOptNat_some (n : Nat) : jOptNat (some n) = Json.num n := rfl

theorem jOptStr_none : jOptStr none = Json.null := rfl

theorem jOptStr_some (s : String) : jOptStr (some s) = Json.str s := rfl

theorem deserializeUrlComponents_round_fields (s h : String)
    (po : Option Nat) (pa : String) (q : List (String × String)) :
    deserializeUrlComponents (Json.obj [("scheme", Json.str s),
      ("host", Json.str h), ("port", jOptNat po), ("path", Json.str pa),
      ("query_params", Json.obj (q.map fun p => (p.1, Json.str p.2)))]) =
      .ok { scheme := s, host := h, port := po, path := pa,
            query_params := q } :=
  deserializeUrlComponents_round ⟨s, h, po, pa, q⟩

set_option maxHeartbeats 4000000 in
theorem deserializeProxyRequest_round (e : ProxyRequestEvent) :
    deserializeProxyRequest (proxyRequestFields e) = .ok e := by
  rcases e with ⟨i, me, ur, he, bo, tl, uc, cu, ep, av⟩
  cases tl <;> cases uc <;> cases cu <;> cases ep <;> cases av <;>
    simp [proxyRequestFields, deserializeProxyRequest, jStrMap, reqStr,
      optNatField, optStrField, reqStrMap, getOnce, valuesFor,
      strPairs_round, deserializeBodyData_round, serializeUrlComponents,
      deserializeUrlComponents_round_fields, jOptNat_none, jOptNat_some,
      jOptStr_none, jOptStr_some]

theorem valuesFor_eq_nil (l : List (String × Json)) (k : String) :
    (∀ p ∈ l, ¬(p.1 = k)) → valuesFor l k = [] := by
  induction l with
  | nil => intro _; rfl
  | cons p t ih =>
    intro h
    have h1 : (p.1 == k) = false := by
      simpa using h p (List.mem_cons_self p t)
    have h2 := ih (fun q hq => h q (List.mem_cons_of_mem _ hq))
    simp only [valuesFor, List.filter_cons, h1] at h2 ⊢
    simpa using h2

theorem extraKeyAbsent (extra : List (String × Json))
    (hall : ∀ p ∈ extra, (hookReservedKeys.contains p.1) = false)
    (k : String) (hk : (hookReservedKeys.contains k) = true) :
    valuesFor extra k = [] := by
  apply valuesFor_eq_nil
  intro p hp he
  have h1 := hall p hp
  rw [he, hk] at h1
  cases h1

theorem extraFilterKnown (extra : List (String × Json))
    (hall : ∀ p ∈ extra, (hookReservedKeys.contains p.1) = false) :
    extra.filter (fun p => !(hookKnownKeys.contains p.1)) = extra := by
  induction extra with
  | nil => rfl
  | cons p t ih =>
    have h1 := hall p (List.mem_cons_self p t)
    have h2 : (hookKnownKeys.contains p.1) = false := by
      simp [hookReservedKeys, hookKnownKeys] at h1 ⊢
      tauto
    have h3 := ih (fun q hq => hall q (List.mem_cons_of_mem _ hq))
    have h4 : ¬(p.1 ∈ hookKnownKeys) := by simpa using h2
    simp only [List.filter_cons]
    simp [h4]
    intro a b hab
    have h5 := hall (a, b) (List.mem_cons_of_mem _ hab)
    simp [hookReservedKeys, hookKnownKeys] at h5 ⊢
    tauto

theorem extraFilterType (extra : List (String × Json))
    (hall : ∀ p ∈ extra, (hookReservedKeys.contains p.1) = false) :
    extra.filter (fun p => !(p.1 == "type")) = extra := by
  induction extra with
  | nil => rfl
  | cons p t ih =>
    have h1 := hall p (List.mem_cons_self p t)
    have h2 : (p.1 == "type") = false := by
      simp [hookReservedKeys, hookKnownKeys] at h1 ⊢
      tauto
    have h3 := ih (fun q hq => hall q (List.mem_cons_of_mem _ hq))
    simp [List.filter_cons, h2, h3]

theorem reqStr_of_getOnce (l : List (String × Json)) (k : String) (s : String)
    (h : getOnce l k = .ok (some (.str s))) : reqStr l k = .ok s := by
  simp [reqStr, h]

theorem optStrField_of_getOnce (l : List (String × Json)) (k : String)
    (o : Option String) (h : getOnce l k = .ok (some (jOptStr o))) :
    optStrField l k = .ok o := by
  cases o <;> simp [optStrField, h, jOptStr]

theorem optValField_of_getOnce (l : List (String × Json)) (k : String)
    (o : Option Json)
    (h : getOnce l k = .ok (some (match o with
      | none => Json.null
      | some v => v))) :
    optValField l k = .ok (match o with
      | some .null => none
      | o => o) := by
  cases o with
  | none => simp [optValField, h]
  | some v => cases v <;> simp_all [optValField]

theorem deserializeHook_round (h : HookLogEvent)
    (hall : ∀ p ∈ h.extra, (hookReservedKeys.contains p.1) = false) :
    deserializeHook (hookFields h) =
      .ok { h with tool_input :=
        match h.tool_input with
        | some .null => none
        | o => o } := by
  have he : List.map Prod.snd
      (List.filter (fun p => p.1 == "event_type") h.extra) = [] := by
    simpa [valuesFor] using extraKeyAbsent h.extra hall "event_type" (by decide)
  have hn : List.map Prod.snd
      (List.filter (fun p => p.1 == "tool_name") h.extra) = [] := by
    simpa [valuesFor] using extraKeyAbsent h.extra hall "tool_name" (by decide)
  have hi : List.map Prod.snd
      (List.filter (fun p => p.1 == "tool_input") h.extra) = [] := by
    simpa [valuesFor] using extraKeyAbsent h.extra hall "tool_input" (by decide)
  have ht : List.map Prod.snd
      (List.filter (fun p => p.1 == "transcript_path") h.extra) = [] := by
    simpa [valuesFor] using extraKeyAbsent h.extra hall "transcript_path" (by decide)
  have hc : List.map Prod.snd
      (List.filter (fun p => p.1 == "cwd") h.extra) = [] := by
    simpa [valuesFor] using extraKeyAbsent h.extra hall "cwd" (by decide)
  have g1 : getOnce (hookFields h) "event_type" =
      .ok (some (.str h.event_type)) := by
    simp [getOnce, hookFields, valuesFor_append, valuesFor, he]
  have g2 : getOnce (hookFields h) "tool_name" =
      .ok (some (jOptStr h.tool_name)) := by
    simp [getOnce, hookFields, valuesFor_append, valuesFor, hn]
  have g3 : getOnce (hookFields h) "tool_input" =
      .ok (some (match h.tool_input with
        | none => Json.null
        | some v => v)) := by
    simp [getOnce, hookFields, valuesFor_append, valuesFor, hi]
  have g4 : getOnce (hookFields h) "transcript_path" =
      .ok (some (jOptStr h.transcript_path)) := by
    simp [getOnce, hookFields, valuesFor_append, valuesFor, ht]
  have g5 : getOnce (hookFields h) "cwd" =
      .ok (some (jOptStr h.cwd)) := by
    simp [getOnce, hookFields, valuesFor_append, valuesFor, hc]
  have hfilter : (hookFields h).filter
      (fun p => !(hookKnownKeys.contains p.1)) = h.extra := by
    simp only [hookFields, List.filter_append, extraFilterKnown _ hall]
    rfl
  have o3 : optValField (hookFields h) "tool_input" =
      .ok (match h.tool_input with
        | some .null => none
        | o => o) := by
    rcases hti : h.tool_input with _ | v
    · rw [hti] at g3
      simp [optValField, g3]
    · rw [hti] at g3
      cases v <;> simp [optValField, g3]
  simp [deserializeHook, reqStr_of_getOnce _ _ _ g1,
    optStrField_of_getOnce _ _ _ g2, o3,
    optStrField_of_getOnce _ _ _ g4, optStrField_of_getOnce _ _ _ g5]
  simpa using hfilter

theorem splitTag_cons (t : String) (f : List (String × Json))
    (h1 : valuesFor f "type" = [])
    (h2 : f.filter (fun p => !(p.1 == "type")) = f) :
    splitTag (("type", Json.str t) :: f) = .ok (t, f) := by
  have hv : valuesFor (("type", Json.str t) :: f) "type" = [Json.str t] := by
    simp only [valuesFor, List.filter_cons] at h1 ⊢
    simp at h1 ⊢
    exact h1
  simp [splitTag, getOnce, hv, List.filter_cons, h2]

theorem deserializeLogEvent_round (ev : LogEvent)
    (hx : (match ev with
      | LogEvent.hook h =>
        h.extra.all (fun p => !(hookReservedKeys.contains p.1))
      | _ => true) = true) :
    deserializeLogEvent (serializeLogEvent ev) = .ok (normalizeEvent ev) := by
  cases ev with
  | mcp m => rfl
  | proxyDebug d =>
    rcases d with ⟨lvl, msg, mo, ta, fi, li⟩
    cases mo <;> cases ta <;> cases fi <;> cases li <;> rfl
  | proxyResponse r =>
    have s1 : valuesFor (proxyResponseFields r) "type" = [] := rfl
    have s2 : (proxyResponseFields r).filter (fun p => !(p.1 == "type")) =
        proxyResponseFields r := rfl
    simp [serializeLogEvent, deserializeLogEvent, splitTag_cons _ _ s1 s2,
      deserializeProxyResponse_round, normalizeEvent]
  | proxyRequest q =>
    rcases q with ⟨i, me, ur, he, bo, tl, uc, cu, ep, av⟩
    have s1 : valuesFor (proxyRequestFields
        ⟨i, me, ur, he, bo, tl, uc, cu, ep, av⟩) "type" = [] := by
      cases uc <;> cases cu <;> cases ep <;> cases av <;> rfl
    have s2 : (proxyRequestFields
          ⟨i, me, ur, he, bo, tl, uc, cu, ep, av⟩).filter
        (fun p => !(p.1 == "type")) =
        proxyRequestFields ⟨i, me, ur, he, bo, tl, uc, cu, ep, av⟩ := by
      cases uc <;> cases cu <;> cases ep <;> cases av <;> rfl
    simp [serializeLogEvent, deserializeLogEvent, splitTag_cons _ _ s1 s2,
      deserializeProxyRequest_round, normalizeEvent]
  | hook h =>
    have hall : ∀ p ∈ h.extra, (hookReservedKeys.contains p.1) = false := by
      intro p hp
      have := List.all_eq_true.mp hx p hp
      simpa using this
    have hT : List.map Prod.snd
        (List.filter (fun p => p.1 == "type") h.extra) = [] := by
      simpa [valuesFor] using extraKeyAbsent h.extra hall "type" (by decide)
    have s1 : valuesFor (hookFields h) "type" = [] := by
      simp [hookFields, valuesFor, hT]
    have s2 : (hookFields h).filter (fun p => !(p.1 == "type")) =
        hookFields h := by
      simp only [hookFields, List.filter_append, extraFilterType _ hall]
      rfl
    simp [serializeLogEvent, deserializeLogEvent, splitTag_cons _ _ s1 s2,
      deserializeHook_round h hall, normalizeEvent]

theorem deserializeLogEntry_round (e : LogEntry)
    (hx : entryExtraOk e = true) :
    deserializeLogEntry (serializeLogEntry e) = .ok (normalizeEntry e) := by
  have hev : deserializeLogEvent (serializeLogEvent e.event) =
      .ok (normalizeEvent e.event) :=
    deserializeLogEvent_round e.event (by simpa [entryExtraOk] using hx)
  simp [serializeLogEntry, deserializeLogEntry, reqNat, reqStr, getOnce,
    valuesFor, hev, normalizeEntry]

theorem normalizeEntry_idem (e : LogEntry) :
    normalizeEntry (normalizeEntry e) = normalizeEntry e := by
  rcases e with ⟨sv, ts, da, si, co, ev⟩
  cases ev with
  | hook h =>
    rcases h with ⟨et, tn, ti, tp, cw, extra⟩
    rcases ti with _ | v
    · rfl
    · cases v <;> rfl
  | mcp m => rfl
  | proxyRequest q => rfl
  | proxyResponse r => rfl
  | proxyDebug d => rfl

/-! ## Round-trip theorem for constructed entries (C6) -/

/-- Amended claim C6: for every entry built by the five schema
constructors whose hook `extra` map (if any) avoids the reserved key
names (`type` and the named `HookLogEvent` fields), deserializing the
serialization yields an entry equal to the original up to the
JSON-null/absent equivalence on optional values (`normalizeEntry`
identifies `Some(Null)` with `None`).  Without the reserved-key
restriction the round trip can fail, see the counterexample. -/
theorem constructed_roundtrip (e : LogEntry) (hc : Constructed e)
    (hx : entryExtraOk e = true) :
    ∃ e2, deserializeLogEntry (serializeLogEntry e) = .ok e2 ∧
      normalizeEntry e2 = normalizeEntry e := by
  cases hc
  all_goals exact ⟨_, deserializeLogEntry_round _ hx, normalizeEntry_idem _⟩

/-- The round-trip theorem applied at a concrete constructed entry. -/
theorem constructed_roundtrip_witness :
    Constructed (LogEntry.new_hook "2025-01-01T00:00:00Z" "2025-01-01" "u"
      "s" "PreToolUse" (some "Bash") (some (Json.obj [("command",
      Json.str "ls")])) none none [("custom", Json.num 3)]) ∧
    entryExtraOk (LogEntry.new_hook "2025-01-01T00:00:00Z" "2025-01-01" "u"
      "s" "PreToolUse" (some "Bash") (some (Json.obj [("command",
      Json.str "ls")])) none none [("custom", Json.num 3)]) = true ∧
    ∃ e2, deserializeLogEntry (serializeLogEntry (LogEntry.new_hook
        "2025-01-01T00:00:00Z" "2025-01-01" "u" "s" "PreToolUse"
        (some "Bash") (some (Json.obj [("command", Json.str "ls")])) none
        none [("custom", Json.num 3)])) = .ok e2 ∧
      normalizeEntry e2 = normalizeEntry (LogEntry.new_hook
        "2025-01-01T00:00:00Z" "2025-01-01" "u" "s" "PreToolUse"
        (some "Bash") (some (Json.obj [("command", Json.str "ls")])) none
        none [("custom", Json.num 3)]) :=
  ⟨Constructed.hook _ _ _ _ _ _ _ _ _ _, rfl,
    constructed_roundtrip _ (Constructed.hook _ _ _ _ _ _ _ _ _ _) rfl⟩

/-- Counterexample to claim C6 as stated: a hook entry whose `extra` map
carries the key `type` serializes with a duplicated `type` key, and
deserialization fails with a duplicate-field error instead of returning
the entry. -/
theorem hook_type_extra_roundtrip_fails :
    deserializeLogEntry (serializeLogEntry (LogEntry.new_hook
      "2025-01-01T00:00:00Z" "2025-01-01" "u" "s" "PreToolUse" none none
      none none [("type", Json.str "x")])) =
      .error "duplicate field type" := by
  rfl

/-- Counterexample to claim C9 as stated: a bare `v` path segment (no
digit or dot after it) is returned by the code though the claimed pattern
rejects it, and a differently-cased `Anthropic-Version` header is missed
by the code though the claim promises case-insensitive lookup. -/
theorem extract_api_version_deviates_from_claim :
    extract_api_version "/v/x" [] = some "v" ∧
    claim_extract_api_version "/v/x" [] = none ∧
    extract_api_version "/" [("Anthropic-Version", "2023-06-01")] = none ∧
    claim_extract_api_version "/" [("Anthropic-Version", "2023-06-01")] =
      some "2023-06-01" := by
  exact ⟨rfl, rfl, rfl, rfl⟩

/-- Amended claim C9: the code's extraction is exactly the amended rule,
and on ordinary inputs it behaves as the spec intends. -/
theorem extract_api_version_amended (path : String)
    (headers : List (String × String)) :
    extract_api_version path headers =
      amended_extract_api_version path headers ∧
    extract_api_version "/v1/messages" [] = some "v1" ∧
    extract_api_version "/" [("anthropic-version", "2023-06-01")] =
      some "2023-06-01" ∧
    extract_api_version "/" [("x", "y"), ("api-version", "2")] = some "2" ∧
    extract_api_version "/" [] = none := by
  exact ⟨rfl, rfl, rfl, rfl, rfl⟩

/-! ## Upstream-failure behaviour (C5) -/

/-- Claim C5 is false on the code: when the upstream request fails,
`forward_request` propagates the error to the hyper service (the
connection is torn down), so the client never receives a synthesized 502
response, and no `ProxyResponse` event is emitted — the log gains at most
the `ProxyRequest` entry. -/
theorem upstream_failure_no_502_no_response_event
    (gz : List Nat → Except String (List Nat)) (config : ProxyConfig)
    (request_id session_id now date : String) (req : RequestData)
    (body : List Nat) (url_components : Option UrlComponents)
    (curl_command : String) (endpoint_pattern : Option String)
    (e : String) (duration_ms : Nat) :
    (forward_request gz config request_id session_id now date req
        (.ok body) url_components curl_command endpoint_pattern
        (.error e) duration_ms).1 = .error e ∧
    ((forward_request gz config request_id session_id now date req
        (.ok body) url_components curl_command endpoint_pattern
        (.error e) duration_ms).2.all
      (fun en => !(isProxyResponseEntry en))) = true := by
  by_cases h : config.recording.include_bodies = true <;>
    simp [forward_request, h, log_request, LogEntry.new_proxy_request,
      isProxyResponseEntry]

/-! ## Body-recording gate (C10) -/

/-- Counterexample to claim C10 as stated: with
`include_bodies = false`, a completed plain-HTTP forward still changes
the log — the `JsonlTracingLayer` installed by `run_proxy_server` turns
the unconditional `tracing::info!` of `proxy_request` into a `ProxyDebug`
entry written through the same `LogWriter`, so exactly one entry (a
`ProxyDebug` line) is appended, not zero. -/
theorem forwarding_changes_log_without_include_bodies :
    (proxy_request_with_tracing (fun b => .ok b) ⟨⟨"d", true, false, 1024⟩⟩
        "r" "s" "n" "d" "ts" "tu" "tn" "td" "en" "ed" "eu"
        ⟨"GET", "http://h/", "/", []⟩ (.ok []) none "curl" none
        (.ok ⟨200, [], []⟩) 5).2.length = 1 ∧
    ((proxy_request_with_tracing (fun b => .ok b) ⟨⟨"d", true, false, 1024⟩⟩
        "r" "s" "n" "d" "ts" "tu" "tn" "td" "en" "ed" "eu"
        ⟨"GET", "http://h/", "/", []⟩ (.ok []) none "curl" none
        (.ok ⟨200, [], []⟩) 5).2.all
      (fun en => isProxyDebugEntry en)) = true :=
  ⟨rfl, rfl⟩

/-- Amended claim C10: `include_bodies` gates exactly the
`ProxyRequest`/`ProxyResponse` events.  When it is false a forwarded
request writes neither of them and every entry it writes is a
`ProxyDebug` tracing line — but the log still changes: at least one such
line is appended (so forwarding never leaves the log state unchanged).
When it is true (the `Default` value) a completed forward appends the
tracing line, the `ProxyRequest` entry and the `ProxyResponse` entry, in
that order. -/
theorem include_bodies_gates_only_body_events
    (gz : List Nat → Except String (List Nat)) (config : ProxyConfig)
    (request_id session_id now date : String)
    (tracing_session tuuid tnow tdate enow edate euuid : String)
    (req : RequestData) (body_collect : Except String (List Nat))
    (url_components : Option UrlComponents) (curl_command : String)
    (endpoint_pattern : Option String)
    (upstream : Except String ResponseData) (duration_ms : Nat) :
    (config.recording.include_bodies = false →
      ((proxy_request_with_tracing gz config request_id session_id now
          date tracing_session tuuid tnow tdate enow edate euuid req
          body_collect url_components curl_command endpoint_pattern
          upstream duration_ms).2.all
        (fun en => !(isProxyRequestEntry en) && !(isProxyResponseEntry en)))
        = true) ∧
    (config.recording.include_bodies = false →
      ((proxy_request_with_tracing gz config request_id session_id now
          date tracing_session tuuid tnow tdate enow edate euuid req
          body_collect url_components curl_command endpoint_pattern
          upstream duration_ms).2.all
        (fun en => isProxyDebugEntry en)) = true) ∧
    1 ≤ (proxy_request_with_tracing gz config request_id session_id now
          date tracing_session tuuid tnow tdate enow edate euuid req
          body_collect url_components curl_command endpoint_pattern
          upstream duration_ms).2.length ∧
    (config.recording.include_bodies = true →
      ∀ body resp, body_collect = .ok body → upstream = .ok resp →
        (proxy_request_with_tracing gz config request_id session_id now
          date tracing_session tuuid tnow tdate enow edate euuid req
          body_collect url_components curl_command endpoint_pattern
          upstream duration_ms).2 =
          [tracing_layer_entry tnow tdate tuuid tracing_session "INFO"
            (req.method ++ " " ++ req.uri) (some "proxy_server")
            (some "local_logger::proxy_server")
            (some "src/proxy_server.rs") (some 111),
           log_request gz config.recording session_id session_id request_id
            now date req body url_components curl_command endpoint_pattern,
           log_response gz config.recording session_id session_id request_id
            now date resp duration_ms]) ∧
    RecordingConfig.default.include_bodies = true := by
  refine ⟨?_, ?_, ?_, ?_, rfl⟩
  · intro h
    cases body_collect <;> cases upstream <;>
      simp [proxy_request_with_tracing, forward_request, h,
        tracing_layer_entry, LogEntry.new_proxy_debug,
        isProxyRequestEntry, isProxyResponseEntry]
  · intro h
    cases body_collect <;> cases upstream <;>
      simp [proxy_request_with_tracing, forward_request, h,
        tracing_layer_entry, LogEntry.new_proxy_debug, isProxyDebugEntry]
  · cases body_collect <;> cases upstream <;>
      simp [proxy_request_with_tracing]
  · intro h body resp hb hu
    subst hb
    subst hu
    simp [proxy_request_with_tracing, forward_request, h]

theorem listLen_eq {α : Type} (l : List α) :
    ∀ a : Nat, listLen l a = l.length + a := by
  induction l with
  | nil => intro a; simp [listLen]
  | cons x rest ih =>
    intro a
    simp [listLen, ih (a + 1)]
    omega

theorem tailDemoLine_length : tailDemoLine.length = 1000 := by
  rw [show tailDemoLine = List.replicate 999 97 ++ [10] from rfl,
    List.length_append, List.length_replicate]
  rfl

theorem tailDemoFile_length : tailDemoFile.length = 66000 := by
  rw [show tailDemoFile = (List.replicate 66 tailDemoLine).flatten from rfl,
    List.length_flatten, List.map_replicate, List.sum_replicate,
    tailDemoLine_length, smul_eq_mul]

theorem tailDemoFile_size : listLen tailDemoFile 0 = 66000 := by
  rw [listLen_eq, tailDemoFile_length]

theorem scan_no_newline {α : Type} (parse : List Nat → Option α) :
    ∀ (seg : List Nat), (∀ b ∈ seg, ¬(b = 10)) →
      ∀ (rest cur : List Nat) (acc : List α),
      scanBuffer parse (seg ++ rest) cur acc =
        scanBuffer parse rest (seg.reverse ++ cur) acc := by
  intro seg
  induction seg with
  | nil => intro _ rest cur acc; simp
  | cons b s ih =>
    intro h rest cur acc
    have hb : (b == 10) = false := by
      simpa using h b (List.mem_cons_self b s)
    have hrec := ih (fun x hx => h x (List.mem_cons_of_mem _ hx)) rest
      (b :: cur) acc
    have hl : (b :: s).reverse ++ cur = s.reverse ++ (b :: cur) := by
      simp [List.reverse_cons, List.append_assoc]
    simp only [List.cons_append, scanBuffer, hb, Bool.false_eq_true,
      if_false, List.append_eq]
    rw [hrec, hl]

theorem scan_demo_lines : ∀ (k : Nat) (acc : List Unit),
    scanBuffer tailDemoParse ((List.replicate k tailDemoLine).flatten) []
      acc = (List.replicate k () ++ acc, []) := by
  intro k
  induction k with
  | zero => intro acc; simp [scanBuffer]
  | succ m ih =>
    intro acc
    rw [List.replicate_succ, List.flatten_cons]
    nth_rewrite 1 [show tailDemoLine = List.replicate 999 97 ++ [10] from rfl]
    rw [List.append_assoc,
      scan_no_newline tailDemoParse _ (by
        intro b hb
        rw [List.mem_replicate] at hb
        omega) _ _ _]
    rw [show ([10] : List Nat) ++ (List.replicate m tailDemoLine).flatten =
      10 :: (List.replicate m tailDemoLine).flatten from rfl]
    have hne : (((List.replicate 999 97).reverse ++
        ([] : List Nat)).isEmpty) = false := by
      rw [List.append_nil]
      cases hrev : (List.replicate 999 97).reverse with
      | nil =>
        have hlen := congrArg List.length hrev
        rw [List.length_reverse, List.length_replicate] at hlen
        simp at hlen
      | cons x t => rfl
    have hparse : tailDemoParse
        (((List.replicate 999 97).reverse ++ ([] : List Nat)).reverse) =
        some () := by
      simp only [List.append_nil, List.reverse_reverse, tailDemoParse]
      rfl
    simp only [scanBuffer, beq_self_eq_true, if_true, hne,
      Bool.false_eq_true, if_false, hparse]
    rw [ih (() :: acc)]
    simp [List.replicate_succ', List.append_assoc]
theorem tailLoop_succ {α : Type} (parse : List Nat → Option α)
    (file : List Nat) (n fuel offset : Nat) (buffer : List Nat)
    (accRev : List α) :
    tailLoop parse file n (fuel + 1) offset buffer accRev =
      (if offset == 0 then accRev
      else
        let read_size := min CHUNK_SIZE offset
        let offset' := offset - read_size
        let chunk := (file.drop offset').take read_size
        let buf := chunk ++ buffer
        let res := scanBuffer parse buf [] accRev
        if n ≤ listLen res.1 0 then res.1
        else tailLoop parse file n fuel offset' res.2 res.1) := rfl

theorem scanBuffer_nil {α : Type} (parse : List Nat → Option α)
    (cur : List Nat) (acc : List α) :
    scanBuffer parse [] cur acc = (acc, cur.reverse) := rfl

theorem tailDemoFile_decomp : tailDemoFile =
    List.replicate 999 97 ++
      (10 :: (List.replicate 65 tailDemoLine).flatten) := by
  rw [show tailDemoFile = (List.replicate 66 tailDemoLine).flatten from rfl,
    show (66 : Nat) = 65 + 1 from rfl, List.replicate_succ,
    List.flatten_cons]
  nth_rewrite 1 [show tailDemoLine = List.replicate 999 97 ++ [10] from rfl]
  rw [List.append_assoc]
  rfl

theorem chunk1_len : (List.replicate 535 97 ++
    (10 :: (List.replicate 65 tailDemoLine).flatten)).length = 65536 := by
  rw [List.length_append, List.length_cons, List.length_replicate,
    List.length_flatten, List.map_replicate, List.sum_replicate,
    tailDemoLine_length, smul_eq_mul]

theorem chunk1_eq : (tailDemoFile.drop 464).take 65536 =
    List.replicate 535 97 ++
      (10 :: (List.replicate 65 tailDemoLine).flatten) := by
  rw [tailDemoFile_decomp,
    List.drop_append_of_le_length (by rw [List.length_replicate]; omega),
    List.drop_replicate, show (999 - 464 : Nat) = 535 from rfl]
  exact List.take_of_length_le (le_of_eq chunk1_len)

theorem chunk2_eq : (tailDemoFile.drop 0).take 464 =
    List.replicate 464 97 := by
  rw [List.drop_zero, tailDemoFile_decomp,
    List.take_append_of_le_length (by rw [List.length_replicate]; omega),
    List.take_replicate, show min 464 999 = 464 from rfl]

theorem scan_chunk1_step (rest : List Nat)
    (hscan : scanBuffer tailDemoParse rest [] [] =
      (List.replicate 65 (), [])) :
    scanBuffer tailDemoParse (List.replicate 535 97 ++ (10 :: rest)) [] [] =
    (List.replicate 65 (), []) := by
  rw [scan_no_newline tailDemoParse _ (by
    intro b hb
    rw [List.mem_replicate] at hb
    omega) _ _ _]
  have hne : (((List.replicate 535 97).reverse ++
      ([] : List Nat)).isEmpty) = false := by
    rw [List.append_nil]
    cases hrev : (List.replicate 535 97).reverse with
    | nil =>
      have hlen := congrArg List.length hrev
      rw [List.length_reverse, List.length_replicate] at hlen
      simp at hlen
    | cons x t => rfl
  have hparse : tailDemoParse
      (((List.replicate 535 97).reverse ++ ([] : List Nat)).reverse) =
      none := by
    simp only [List.append_nil, List.reverse_reverse, tailDemoParse]
    rw [if_neg]
    intro h
    have hlen := congrArg List.length h
    rw [List.length_replicate, List.length_replicate] at hlen
    omega
  simp only [scanBuffer, beq_self_eq_true, if_true, hne,
    Bool.false_eq_true, if_false, hparse]
  exact hscan

theorem scan_chunk1 : scanBuffer tailDemoParse (List.replicate 535 97 ++
    (10 :: (List.replicate 65 tailDemoLine).flatten)) [] [] =
    (List.replicate 65 (), []) := by
  have h := scan_demo_lines 65 ([] : List Unit)
  rw [List.append_nil] at h
  exact scan_chunk1_step _ h

theorem scan_chunk2 (acc : List Unit) :
    scanBuffer tailDemoParse (List.replicate 464 97) [] acc =
    (acc, List.replicate 464 97) := by
  have h := scan_no_newline tailDemoParse (List.replicate 464 97) (by
    intro b hb
    rw [List.mem_replicate] at hb
    omega) [] [] acc
  rw [List.append_nil] at h
  rw [h, scanBuffer_nil, List.append_nil, List.reverse_reverse]

theorem listLen_replicate65 : listLen (List.replicate 65 ()) 0 = 65 := by
  rw [listLen_eq, List.length_replicate]

/-- Claim C3 fails on the code: for the 66,000-byte file of 66
well-formed events (larger than one 64 KiB chunk),
`read_last_n_lines(file, 66)` returns 65 events rather than
`min(N, k) = 66` — the event whose bytes straddle the chunk boundary is
split into two fragments that each fail to parse and are silently
dropped. -/
theorem read_last_n_lines_drops_boundary_event :
    (read_last_n_lines tailDemoParse tailDemoFile 66).length = 65 := by
  have h1 : tailLoop tailDemoParse tailDemoFile 66 66000 66000 [] [] =
      tailLoop tailDemoParse tailDemoFile 66 65999 464 []
        (List.replicate 65 ()) := by
    rw [show (66000 : Nat) = 65999 + 1 from rfl, tailLoop_succ,
      show ((65999 + 1 : Nat) == 0) = false from rfl]
    simp only [Bool.false_eq_true, if_false]
    rw [show min CHUNK_SIZE (65999 + 1) = 65536 from rfl,
      show (65999 + 1 - 65536 : Nat) = 464 from rfl,
      List.append_nil, chunk1_eq, scan_chunk1]
    simp only [listLen_replicate65]
    rw [if_neg (by omega)]
  have h2 : tailLoop tailDemoParse tailDemoFile 66 65999 464 []
      (List.replicate 65 ()) =
      tailLoop tailDemoParse tailDemoFile 66 65998 0
        (List.replicate 464 97) (List.replicate 65 ()) := by
    rw [show (65999 : Nat) = 65998 + 1 from rfl, tailLoop_succ,
      show ((464 : Nat) == 0) = false from rfl]
    simp only [Bool.false_eq_true, if_false]
    rw [show min CHUNK_SIZE 464 = 464 from rfl,
      show (464 - 464 : Nat) = 0 from rfl,
      List.append_nil, chunk2_eq, scan_chunk2]
    simp only [listLen_replicate65]
    rw [if_neg (by omega)]
  have h3 : tailLoop tailDemoParse tailDemoFile 66 65998 0
      (List.replicate 464 97) (List.replicate 65 ()) =
      List.replicate 65 () := by
    rw [show (65998 : Nat) = 65997 + 1 from rfl, tailLoop_succ,
      show ((0 : Nat) == 0) = true from rfl]
    simp only [if_true]
  simp only [read_last_n_lines, tailDemoFile_size, h1, h2, h3,
    listLen_replicate65]
  rw [if_neg (by omega), List.length_reverse, List.length_replicate]
